import Mathlib

/-!
# CIF version 1 codec (cifParsing.c): shallow embedding

Modelling conventions

* Machine integers are natural numbers; every place where the C code computes
  in 32-bit unsigned arithmetic carries an explicit `% 2 ^ 32`, and the
  narrowing of a `uint32_t` to a `uint16_t` field carries `% 65536`.
* Memory is byte level. A non-NULL pointer is a `Ptr`: the bytes of the heap
  block it points into, and its byte offset in that block. `encInt` (the union
  of `int8_t *`, `int16_t *`, `int32_t *`) is an optional `Ptr`; `none` is NULL.
  The host is little-endian, as the C file assumes.
* A stream (`XFILE`) is a transport mode and a list of bytes: the bytes not yet
  consumed for a stream that is read, the bytes written so far for a stream
  that is written.
* A C function returns `Res`: it returns normally (`ok`), it stops at a failed
  `assert` (`abort`; asserts are compiled in, `NDEBUG` is not defined by the
  file), or it accesses memory through NULL or outside the block a pointer
  addresses (`fault`).
* `malloc` and `calloc` are taken to succeed (`calloc` of zero bytes returns an
  empty block). The unspecified contents of a freshly `malloc`ed header are a
  parameter `junk`.
-/

namespace CifParsing

/-- Outcome of running a C function. -/
inductive Res (α : Type) where
  | ok (a : α)
  | abort
  | fault
deriving DecidableEq

/-- Sequencing: continue with the value of a normal return. -/
def Res.bind {α β : Type} (r : Res α) (f : α → Res β) : Res β :=
  match r with
  | Res.ok a => f a
  | Res.abort => Res.abort
  | Res.fault => Res.fault

/-- The macro NCHANNEL. -/
def NCHANNEL : Nat := 4

/-- A non-NULL pointer: the block it points into and its byte offset there. -/
structure Ptr where
  block : List Nat
  off : Nat
deriving DecidableEq

/-- The union encInt: NULL or a pointer. -/
abbrev encInt := Option Ptr

/-- The enum XFILE_MODE. -/
inductive XFILE_MODE where
  | XFILE_UNKNOWN
  | XFILE_RAW
  | XFILE_GZIP
  | XFILE_BZIP2
deriving DecidableEq

/-- The struct behind XFILE: mode and the bytes of the underlying FILE. -/
structure XFILE where
  mode : XFILE_MODE
  fh : List Nat
deriving DecidableEq

/-- The struct cifData. -/
structure CifData where
  version : Nat
  datasize : Nat
  firstcycle : Nat
  ncycle : Nat
  ncluster : Nat
  intensity : encInt
deriving DecidableEq

/-- Little-endian bytes of an unsigned integer object of n bytes. -/
def toLE : Nat → Nat → List Nat
  | 0, _ => []
  | n + 1, v => (v % 256) :: toLE n (v / 256)

/-- Value of an unsigned integer object given by its little-endian bytes. -/
def ofLE : List Nat → Nat
  | [] => 0
  | b :: bs => b + 256 * ofLE bs

/-- Value of a signed (two's complement) integer object given by its
little-endian bytes: how the host reads an int8_t, int16_t or int32_t. -/
def sle (bs : List Nat) : Int :=
  if ofLE bs < 2 ^ (8 * bs.length - 1) then (ofLE bs : Int)
  else (ofLE bs : Int) - 2 ^ (8 * bs.length)

/-- Bytes of a signed integer of w bytes, as the host stores it. -/
def storeInt (w : Nat) (e : Int) : List Nat :=
  toLE w (e % 2 ^ (8 * w)).toNat

/-- The element p[i] of a block read as an array of w-byte signed integers
(intensity.i8[i], intensity.i16[i], intensity.i32[i]). -/
def elemAt (w : Nat) (block : List Nat) (i : Nat) : Int :=
  sle ((block.drop (w * i)).take w)

/-- All elements of a block read as an array of w-byte signed integers. -/
def elems (w : Nat) (block : List Nat) : List Int :=
  (List.range (block.length / w)).map (elemAt w block)

/-- The bytes of an array of w-byte signed integers. -/
def storeElems (w : Nat) (es : List Int) : List Nat :=
  (es.map (storeInt w)).flatten

/-- The library call fread(ptr, size, nmemb, fh), ptr at byte offset off of
block: the bytes available, at most size * nmemb, are copied to ptr; gives the
block afterwards, the number of complete items and the rest of the file.
Copying past the end of the block is a fault. -/
def fread (block : List Nat) (off size nmemb : Nat) (fh : List Nat) :
    Res (List Nat × Nat × List Nat) :=
  let got := fh.take (size * nmemb)
  if got.length ≠ 0 ∧ block.length < off + got.length then Res.fault
  else Res.ok (block.take off ++ got ++ block.drop (off + got.length),
               got.length / size, fh.drop got.length)

/-- The library call fwrite(ptr, size, nmemb, fh), ptr at byte offset off of
block: size * nmemb bytes are appended to the file (an in-memory file takes
every write). Reading past the end of the block is a fault. -/
def fwrite (block : List Nat) (off size nmemb : Nat) (fh : List Nat) :
    Res (Nat × List Nat) :=
  if size * nmemb ≠ 0 ∧ block.length < off + size * nmemb then Res.fault
  else Res.ok (nmemb, fh ++ (block.drop off).take (size * nmemb))

/-- The function xfread. -/
def xfread (block : List Nat) (off size nmemb : Nat) (fp : XFILE) :
    Res (List Nat × Nat × XFILE) :=
  match fp.mode with
  | XFILE_MODE.XFILE_UNKNOWN | XFILE_MODE.XFILE_RAW =>
    (fread block off size nmemb fp.fh).bind fun r =>
      Res.ok (r.1, r.2.1, { fp with fh := r.2.2 })
  | _ => Res.ok (block, 0, fp)

/-- The function xfwrite. -/
def xfwrite (block : List Nat) (off size nmemb : Nat) (fp : XFILE) :
    Res (Nat × XFILE) :=
  match fp.mode with
  | XFILE_MODE.XFILE_UNKNOWN | XFILE_MODE.XFILE_RAW =>
    (fwrite block off size nmemb fp.fh).bind fun r =>
      Res.ok (r.1, { fp with fh := r.2 })
  | _ => Res.ok (0, fp)

/-- The function xfputs; str is the C string without its terminating NUL.
The return value (EOF or non-negative) is not used by any caller. -/
def xfputs (str : List Nat) (fp : XFILE) : XFILE :=
  match fp.mode with
  | XFILE_MODE.XFILE_UNKNOWN | XFILE_MODE.XFILE_RAW => { fp with fh := fp.fh ++ str }
  | _ => fp

/-- The library call strncmp on NUL-terminated byte strings (a missing byte
reads as NUL). -/
def strncmp : List Nat → List Nat → Nat → Int
  | _, _, 0 => 0
  | s1, s2, n + 1 =>
    if s1.headD 0 ≠ s2.headD 0 then (s1.headD 0 : Int) - (s2.headD 0 : Int)
    else if s1.headD 0 = 0 then 0
    else strncmp s1.tail s2.tail n

/-- The string literal "CIF" with its terminating NUL. -/
def hd_str : List Nat := [67, 73, 70, 0]

/-- The function isCifAllowedDatasize. -/
def isCifAllowedDatasize (datasize : Nat) : Bool :=
  if 1 = datasize ∨ 2 = datasize ∨ 4 = datasize then true else false

/-- The function readCifHeader. The stream after the call is returned with
the header pointer (none is NULL). -/
def readCifHeader (junk : CifData) (ayb_fp : XFILE) : Res (Option CifData × XFILE) :=
  (xfread [0, 0, 0, 0] 0 3 1 ayb_fp).bind fun r0 =>
  if strncmp r0.1 hd_str 3 ≠ 0 then Res.ok (none, r0.2.2)
  else
  (xfread (toLE 1 junk.version) 0 1 1 r0.2.2).bind fun r1 =>
  (xfread (toLE 1 junk.datasize) 0 1 1 r1.2.2).bind fun r2 =>
  (xfread (toLE 2 junk.firstcycle) 0 2 1 r2.2.2).bind fun r3 =>
  (xfread (toLE 2 junk.ncycle) 0 2 1 r3.2.2).bind fun r4 =>
  (xfread (toLE 4 junk.ncluster) 0 4 1 r4.2.2).bind fun r5 =>
  let header : CifData :=
    { version := ofLE r1.1, datasize := ofLE r2.1, firstcycle := ofLE r3.1,
      ncycle := ofLE r4.1, ncluster := ofLE r5.1, intensity := none }
  if ¬ (1 = header.version) then Res.abort
  else if isCifAllowedDatasize header.datasize = false then Res.abort
  else Res.ok (some header, r5.2.2)

/-- The function readEncodedFloats. -/
def readEncodedFloats (ayb_fp : XFILE) (nfloat nbyte : Nat) (intensities : encInt) :
    Res (encInt × XFILE) :=
  if ¬ (1 = nbyte ∨ 2 = nbyte ∨ 4 = nbyte) then Res.abort
  else if ¬ (nfloat > 0) then Res.abort
  else
    let p : Ptr :=
      match intensities with
      | none => { block := List.replicate (nfloat * nbyte) 0, off := 0 }
      | some q => q
    (xfread p.block p.off nbyte nfloat ayb_fp).bind fun r =>
      Res.ok (some { block := r.1, off := p.off }, r.2.2)

/-- The function readCifIntensities; header is a pointer (none is NULL).
The product is formed in unsigned 32-bit arithmetic. -/
def readCifIntensities (ayb_fp : XFILE) (header : Option CifData) (intensities : encInt) :
    Res (encInt × XFILE) :=
  match header with
  | none => Res.fault
  | some h =>
    let size := ((NCHANNEL * h.ncluster) % 2 ^ 32 * h.ncycle) % 2 ^ 32
    readEncodedFloats ayb_fp size h.datasize intensities

/-- The function writeCifHeader. -/
def writeCifHeader (ayb_fp : XFILE) (header : CifData) : Res (Bool × XFILE) :=
  if isCifAllowedDatasize header.datasize = false then Res.abort
  else if ¬ (1 = header.version) then Res.abort
  else
    let fp0 := xfputs [67, 73, 70] ayb_fp
    (xfwrite (toLE 1 header.version) 0 1 1 fp0).bind fun r1 =>
    (xfwrite (toLE 1 header.datasize) 0 1 1 r1.2).bind fun r2 =>
    (xfwrite (toLE 2 header.firstcycle) 0 2 1 r2.2).bind fun r3 =>
    (xfwrite (toLE 2 header.ncycle) 0 2 1 r3.2).bind fun r4 =>
    (xfwrite (toLE 4 header.ncluster) 0 4 1 r4.2).bind fun r5 =>
    Res.ok (true, r5.2)

/-- The function writeEncodedFloats. -/
def writeEncodedFloats (ayb_fp : XFILE) (nfloat nbyte : Nat) (intensities : encInt) :
    Res (Bool × XFILE) :=
  match intensities with
  | none => if nbyte * nfloat = 0 then Res.ok (true, ayb_fp) else Res.fault
  | some p => (xfwrite p.block p.off nbyte nfloat ayb_fp).bind fun r => Res.ok (true, r.2)

/-- The function write2CIFstream; ayb_fp is a pointer (none is NULL). The
header field ncycle is a uint16_t initialised from a uint32_t, and the element
count is formed in unsigned 32-bit arithmetic. -/
def write2CIFstream (ayb_fp : Option XFILE) (intensities : encInt)
    (firstcycle ncycle ncluster nbyte : Nat) : Res (Bool × XFILE) :=
  match ayb_fp with
  | none => Res.abort
  | some fp =>
    if intensities = none then Res.abort
    else if isCifAllowedDatasize nbyte = false then Res.abort
    else
      let header : CifData :=
        { version := 1, datasize := nbyte, firstcycle := firstcycle,
          ncycle := ncycle % 65536, ncluster := ncluster, intensity := none }
      (writeCifHeader fp header).bind fun r =>
      writeEncodedFloats r.2 (((ncluster * ncycle) % 2 ^ 32 * NCHANNEL) % 2 ^ 32) nbyte intensities

/-- The function writeCIFtoStream; both arguments are pointers. -/
def writeCIFtoStream (cif : Option CifData) (ayb_fp : Option XFILE) :
    Res (Bool × Option XFILE) :=
  match cif with
  | none => Res.ok (false, ayb_fp)
  | some c =>
    match ayb_fp with
    | none => Res.ok (false, none)
    | some fp =>
      (write2CIFstream (some fp) c.intensity c.firstcycle c.ncycle c.ncluster c.datasize).bind
        fun r => Res.ok (r.1, some r.2)

/-- The function readCIFfromStream. The header pointer is used without a
NULL test. -/
def readCIFfromStream (junk : CifData) (ayb_fp : XFILE) : Res (Option CifData × XFILE) :=
  (readCifHeader junk ayb_fp).bind fun r =>
  (readCifIntensities r.2 r.1 none).bind fun q =>
  match r.1 with
  | none => Res.fault
  | some cif => Res.ok (some { cif with intensity := q.1 }, q.2)

/-- The loop of find_suffix: i runs from the given index down to 1. -/
def find_suffix_loop (fn : List Char) : Nat → Option (List Char)
  | 0 => none
  | i + 1 =>
    if fn[i + 1]? = some '.' then some (fn.drop (i + 2))
    else find_suffix_loop fn i

/-- The function find_suffix; fn is the C string without its NUL. For the
empty string len - 1 wraps around (size_t) and fn is read far outside. -/
def find_suffix (fn : List Char) : Res (List Char) :=
  if fn.length = 0 then Res.fault
  else
    match find_suffix_loop fn (fn.length - 1) with
    | some s => Res.ok s
    | none =>
      if fn[0]? = some '.' then Res.ok (fn.drop 1)
      else Res.ok (fn.drop fn.length)

/-- The function guess_mode_from_filename. -/
def guess_mode_from_filename (fn : List Char) : Res XFILE_MODE :=
  (find_suffix fn).bind fun suffix =>
  if suffix = ['g', 'z'] then Res.ok XFILE_MODE.XFILE_GZIP
  else if suffix = ['b', 'z', '2'] then Res.ok XFILE_MODE.XFILE_BZIP2
  else Res.ok XFILE_MODE.XFILE_RAW

/-- The function xfopen for reading (mode_str is "rb"); fs is the file
system: the bytes of the file of a name that fopen can open. -/
def xfopen (fs : List Char → Option (List Nat)) (fn : List Char) (mode : XFILE_MODE) :
    Res (Option XFILE) :=
  (if XFILE_MODE.XFILE_UNKNOWN = mode then guess_mode_from_filename fn else Res.ok mode).bind
  fun m =>
  match m with
  | XFILE_MODE.XFILE_UNKNOWN | XFILE_MODE.XFILE_RAW =>
    match fs fn with
    | some bytes => Res.ok (some { mode := m, fh := bytes })
    | none => Res.ok none
  | _ => Res.ok none

/-- The function consistent_cif_headers. -/
def consistent_cif_headers (cif1 cif2 : CifData) : Bool :=
  if cif1.version ≠ cif2.version then false
  else if cif1.datasize ≠ cif2.datasize then false
  else if cif1.ncluster ≠ cif2.ncluster then false
  else true

/-- The function new_cif. -/
def new_cif : CifData :=
  { version := 1, datasize := 2, firstcycle := 1, ncycle := 0, ncluster := 0,
    intensity := none }

/-- The function cif_add_file; fn and cif are pointers (none is NULL). The
error exit frees cif and returns NULL. The products are formed in unsigned
32-bit arithmetic; mem points into the block of cif, so what is read through
mem is the new content of that block, and a block read through a NULL mem is
lost. -/
def cif_add_file (fs : List Char → Option (List Nat)) (junk : CifData)
    (fn : Option (List Char)) (mode : XFILE_MODE) (cif : Option CifData) :
    Res (Option CifData) :=
  match fn with
  | none => Res.ok none
  | some name =>
  (xfopen fs name mode).bind fun opened =>
  match opened with
  | none => Res.ok none
  | some ayb_fp =>
  (readCifHeader junk ayb_fp).bind fun rh =>
  match rh.1 with
  | none => Res.ok none
  | some newheader =>
  match cif with
  | none => Res.fault
  | some cif0 =>
  let first : CifData × Ptr :=
    match cif0.intensity with
    | none =>
      let p : Ptr :=
        { block := List.replicate
            ((((cif0.ncycle * newheader.ncluster) % 2 ^ 32 * NCHANNEL) % 2 ^ 32) * cif0.datasize) 0,
          off := 0 }
      ({ cif0 with ncluster := newheader.ncluster, intensity := some p }, p)
    | some p => (cif0, p)
  let cif1 := first.1
  let p := first.2
  if consistent_cif_headers cif1 newheader = false then Res.ok none
  else
    let offset :=
      ((((newheader.firstcycle + 2 ^ 32 - 1) % 2 ^ 32 * cif1.ncluster) % 2 ^ 32) * NCHANNEL) % 2 ^ 32
    let mem : encInt :=
      match cif1.datasize with
      | 1 => some { block := p.block, off := p.off + offset }
      | 2 => some { block := p.block, off := p.off + 2 * offset }
      | 3 => some { block := p.block, off := p.off + 4 * offset }
      | _ => none
    (readCifIntensities rh.2 (some newheader) mem).bind fun q =>
    match mem, q.1 with
    | some _, some m => Res.ok (some { cif1 with intensity := some { block := m.block, off := p.off } })
    | _, _ => Res.ok (some cif1)

/-- The 13 bytes of a header on the wire: the magic, then the five fields as
the little-endian host stores them. -/
def wireHeader (version datasize firstcycle ncycle ncluster : Nat) : List Nat :=
  [67, 73, 70] ++ toLE 1 version ++ toLE 1 datasize ++ toLE 2 firstcycle ++
    toLE 2 ncycle ++ toLE 4 ncluster

/-- A stream whose transport is the one realised in the code (raw, or
unknown, which is handled as raw). -/
def XFILE.plain (fp : XFILE) : Prop :=
  fp.mode = XFILE_MODE.XFILE_UNKNOWN ∨ fp.mode = XFILE_MODE.XFILE_RAW

instance (fp : XFILE) : Decidable fp.plain := by
  unfold XFILE.plain; infer_instance

/-- Modelled from the spec: the caller's loop of section 4.3, which is not in
the source file. The files are processed one after the other with
cif_add_file, each call receiving the aggregate the previous one returned; a
NULL result ends the aggregation with no result. -/
def cif_add_files (fs : List Char → Option (List Nat)) (junk : CifData) (mode : XFILE_MODE) :
    List (List Char) → Option CifData → Res (Option CifData)
  | [], cif => Res.ok cif
  | _ :: _, none => Res.ok none
  | fn :: fns, some c =>
    (cif_add_file fs junk (some fn) mode (some c)).bind fun r =>
      cif_add_files fs junk mode fns r

/-- The aggregate of n cycles, k clusters and width w whose first i cycles hold
the bytes of full and whose other cycles are still zero. -/
def aggState (n k w : Nat) (full : List Nat) (i : Nat) : CifData :=
  { version := 1, datasize := w, firstcycle := 1, ncycle := n, ncluster := k,
    intensity := some
      { block := full.take (i * (4 * k * w)) ++ List.replicate ((n - i) * (4 * k * w)) 0,
        off := 0 } }

/-- Scenario B of the specification: the full buffer of two cycles of three
clusters of width 1, with the values 1 to 24. -/
def scenarioB_full : List Nat :=
  [1, 2, 3, 4, 5, 6, 7, 8, 9, 10, 11, 12, 13, 14, 15, 16, 17, 18, 19, 20, 21, 22, 23, 24]

/-- Scenario B: the names of the two single-cycle files. -/
def scenarioB_name (i : Nat) : List Char :=
  if i = 0 then ['C', '1'] else ['C', '2']

/-- Scenario B: a file system that holds the two single-cycle files. -/
def scenarioB_fs (fn : List Char) : Option (List Nat) :=
  if fn = ['C', '1'] then some (wireHeader 1 1 1 1 3 ++ [1, 2, 3, 4, 5, 6, 7, 8, 9, 10, 11, 12])
  else if fn = ['C', '2'] then
    some (wireHeader 1 1 2 1 3 ++ [13, 14, 15, 16, 17, 18, 19, 20, 21, 22, 23, 24])
  else none

/-- The library call memcpy(dst, src, n), dst at byte offset doff of dblock:
the block of dst afterwards. Copying nothing touches no memory; otherwise
reading through NULL, reading past the end of the source block or writing past
the end of the destination block is a fault. -/
def memcpy (dblock : List Nat) (doff : Nat) (src : encInt) (n : Nat) : Res (List Nat) :=
  if n = 0 then Res.ok dblock
  else
    match src with
    | none => Res.fault
    | some s =>
      if s.block.length < s.off + n ∨ dblock.length < doff + n then Res.fault
      else Res.ok (dblock.take doff ++ (s.block.drop s.off).take n ++ dblock.drop (doff + n))

/-- The function spliceCIF; cif is a pointer (none is NULL). offset is a
size_t, so offset + ncycle and offset8 are formed modulo 2 ^ 64; the field
ncycle of the copy is a uint16_t assigned from a uint32_t; nobs is formed in
unsigned 32-bit arithmetic. -/
def spliceCIF (cif : Option CifData) (ncycle offset : Nat) : Res (Option CifData) :=
  match cif with
  | none => Res.ok none
  | some c =>
    if (offset + ncycle) % 2 ^ 64 > c.ncycle then Res.ok none
    else
      let newcif : CifData := { c with firstcycle := 1, ncycle := ncycle % 65536 }
      let nobs := ((NCHANNEL * newcif.ncluster) % 2 ^ 32 * newcif.ncycle) % 2 ^ 32
      let fresh := List.replicate (nobs * newcif.datasize) 0
      let offset8 := (offset * NCHANNEL * newcif.ncluster * c.datasize) % 2 ^ 64
      (memcpy fresh 0 (c.intensity.map fun p => { p with off := p.off + offset8 })
          (nobs * newcif.datasize)).bind fun b =>
        Res.ok (some { newcif with intensity := some { block := b, off := 0 } })

/-- The index expression of showCIF, (cycle*NCHANNEL+base)*cif->ncluster+cluster:
cycle, base and cluster are int, ncluster is a uint32_t, so the product and the
sum are formed in unsigned 32-bit arithmetic. -/
def showCIF_index (ncluster cluster base cycle : Nat) : Nat :=
  (((cycle * NCHANNEL + base) % 2 ^ 32 * ncluster) % 2 ^ 32 + cluster) % 2 ^ 32

/-- A block with the bytes d written at byte offset o. -/
def placeAt (blk : List Nat) (o : Nat) (d : List Nat) : List Nat :=
  blk.take o ++ d ++ blk.drop (o + d.length)

/-- Scenario C of the specification: a source of four cycles of one cluster of
width 1; cycle c holds the bytes 10 * c + 1 to 10 * c + 4. -/
def scenarioC_source : CifData :=
  { version := 1, datasize := 1, firstcycle := 1, ncycle := 4, ncluster := 1,
    intensity := some
      { block := [1, 2, 3, 4, 11, 12, 13, 14, 21, 22, 23, 24, 31, 32, 33, 34], off := 0 } }

/-- The file of this name opens as a raw stream that holds a complete record:
the wire header of version 1, width w (1, 2 or 4), first cycle fc, nc cycles
and k clusters, followed by the w * (nc * 4 * k) bytes of data. -/
def holdsRecord (fs : List Char → Option (List Nat)) (mode : XFILE_MODE) (name : List Char)
    (w fc nc k : Nat) (data : List Nat) : Prop :=
  ∃ fp rest, xfopen fs name mode = Res.ok (some fp) ∧ fp.plain ∧
    (w = 1 ∨ w = 2 ∨ w = 4) ∧ fc < 65536 ∧ nc < 65536 ∧ k < 2 ^ 32 ∧
    fp.fh = wireHeader 1 w fc nc k ++ (data ++ rest) ∧ data.length = w * (nc * 4 * k)

/-! ## Basic facts -/

@[simp] theorem Res.bind_ok {α β : Type} (a : α) (f : α → Res β) :
    (Res.ok a).bind f = f a := rfl

@[simp] theorem Res.bind_abort {α β : Type} (f : α → Res β) :
    (Res.abort : Res α).bind f = Res.abort := rfl

@[simp] theorem Res.bind_fault {α β : Type} (f : α → Res β) :
    (Res.fault : Res α).bind f = Res.fault := rfl

theorem length_toLE (n v : Nat) : (toLE n v).length = n := by
  induction n generalizing v with
  | zero => rfl
  | succ n ih => simp [toLE, ih]

theorem xfread_plain (block : List Nat) (off size nmemb : Nat) (fp : XFILE) (h : fp.plain) :
    xfread block off size nmemb fp =
      (fread block off size nmemb fp.fh).bind fun r =>
        Res.ok (r.1, r.2.1, { fp with fh := r.2.2 }) := by
  rcases h with h | h <;> simp [xfread, h]

theorem xfwrite_plain (block : List Nat) (off size nmemb : Nat) (fp : XFILE) (h : fp.plain) :
    xfwrite block off size nmemb fp =
      (fwrite block off size nmemb fp.fh).bind fun r =>
        Res.ok (r.1, { fp with fh := r.2 }) := by
  rcases h with h | h <;> simp [xfwrite, h]

theorem xfputs_plain (str : List Nat) (fp : XFILE) (h : fp.plain) :
    xfputs str fp = { fp with fh := fp.fh ++ str } := by
  rcases h with h | h <;> simp [xfputs, h]

/-- Reading exactly the bytes in front of the stream into a block they fit in. -/
theorem fread_append (block : List Nat) (off size nmemb : Nat) (a rest : List Nat)
    (ha : a.length = size * nmemb) (hfit : off + a.length ≤ block.length) :
    fread block off size nmemb (a ++ rest) =
      Res.ok (block.take off ++ a ++ block.drop (off + a.length), a.length / size, rest) := by
  have h1 : List.take (size * nmemb) (a ++ rest) = a := by
    rw [← ha]; exact List.take_left' rfl
  unfold fread
  simp only [h1]
  rw [if_neg (by omega)]
  simp

/-- The header parser on a stream that starts with a complete wire header. -/
theorem readCifHeader_wire (junk : CifData) (fp : XFILE) (hp : fp.plain)
    (v w fc nc k : Nat) (rest : List Nat)
    (hv : v < 256) (hw : w < 256) (hfc : fc < 65536) (hnc : nc < 65536) (hk : k < 2 ^ 32)
    (hs : fp.fh = wireHeader v w fc nc k ++ rest) :
    readCifHeader junk fp =
      if ¬ (1 = v) then Res.abort
      else if isCifAllowedDatasize w = false then Res.abort
      else Res.ok (some { version := v, datasize := w, firstcycle := fc, ncycle := nc,
                          ncluster := k, intensity := none }, { fp with fh := rest }) := by
  obtain ⟨m, fh⟩ := fp
  simp only at hs
  subst hs
  have e1 : v % 256 = v := Nat.mod_eq_of_lt hv
  have e2 : w % 256 = w := Nat.mod_eq_of_lt hw
  have e3 : fc % 256 + 256 * (fc / 256 % 256) = fc := by omega
  have e4 : nc % 256 + 256 * (nc / 256 % 256) = nc := by omega
  have e5 : k % 256 + 256 * (k / 256 % 256 + 256 * (k / 256 / 256 % 256 +
      256 * (k / 256 / 256 / 256 % 256))) = k := by omega
  rcases hp with h | h <;> simp only [] at h <;> subst h <;>
    simp [readCifHeader, xfread, wireHeader, toLE, fread, strncmp, hd_str, ofLE, e1, e2, e3, e4, e5]

theorem writeCifHeader_plain (fp : XFILE) (header : CifData) (hp : fp.plain)
    (hv : header.version = 1)
    (hw : header.datasize = 1 ∨ header.datasize = 2 ∨ header.datasize = 4) :
    writeCifHeader fp header =
      Res.ok (true, { fp with fh := fp.fh ++ (wireHeader header.version header.datasize
                        header.firstcycle header.ncycle header.ncluster) }) := by
  obtain ⟨m, fh⟩ := fp
  have ha : isCifAllowedDatasize header.datasize = true := by
    rcases hw with h | h | h <;> simp [isCifAllowedDatasize, h]
  rcases hp with h | h <;> simp only [] at h <;> subst h <;>
    simp [writeCifHeader, ha, hv, xfputs, xfwrite, fwrite, toLE, wireHeader]

/-- Reading into a fresh zeroed block: the bytes the stream can supply, then
the zeros that calloc left. -/
theorem readEncodedFloats_null (fp : XFILE) (hp : fp.plain) (nfloat nbyte : Nat)
    (hw : nbyte = 1 ∨ nbyte = 2 ∨ nbyte = 4) (hn : 0 < nfloat) :
    readEncodedFloats fp nfloat nbyte none =
      Res.ok (some { block := fp.fh.take (nbyte * nfloat) ++
                      List.replicate (nfloat * nbyte - (fp.fh.take (nbyte * nfloat)).length) 0,
                     off := 0 },
              { fp with fh := fp.fh.drop (nbyte * nfloat) }) := by
  have hlen : (fp.fh.take (nbyte * nfloat)).length ≤ nfloat * nbyte := by
    rw [List.length_take, Nat.mul_comm]; exact Nat.min_le_left _ _
  have hw2 : 1 = nbyte ∨ 2 = nbyte ∨ 4 = nbyte := by omega
  have hd : List.drop (min (nbyte * nfloat) fp.fh.length) fp.fh
      = List.drop (nbyte * nfloat) fp.fh := by
    rcases Nat.le_total (nbyte * nfloat) fp.fh.length with h | h
    · rw [Nat.min_eq_left h]
    · rw [Nat.min_eq_right h, List.drop_of_length_le (Nat.le_refl _), List.drop_of_length_le h]
  unfold readEncodedFloats
  rw [if_neg (not_not.mpr hw2), if_neg (by omega)]
  simp only [xfread_plain _ _ _ _ _ hp, fread]
  rw [if_neg (by simp only [List.length_replicate]; omega)]
  simp [hd]

/-! ## The element view of a block -/

theorem ofLE_toLE (n v : Nat) (h : v < 256 ^ n) : ofLE (toLE n v) = v := by
  induction n generalizing v with
  | zero =>
    have : v = 0 := by simpa using h
    simp [toLE, ofLE, this]
  | succ n ih =>
    have h1 : v / 256 < 256 ^ n := by
      apply Nat.div_lt_of_lt_mul
      rw [Nat.mul_comm]
      simpa [Nat.pow_succ] using h
    simp only [toLE, ofLE, ih _ h1]
    omega

theorem length_storeInt (w : Nat) (e : Int) : (storeInt w e).length = w := by
  simp [storeInt, length_toLE]

theorem sle_storeInt (w : Nat) (hw : 0 < w) (e : Int)
    (lo : -(2 : Int) ^ (8 * w - 1) ≤ e) (hi : e < (2 : Int) ^ (8 * w - 1)) :
    sle (storeInt w e) = e := by
  obtain ⟨h, hh⟩ : ∃ h : Nat, h = 2 ^ (8 * w - 1) := ⟨_, rfl⟩
  have hM : (2 : Nat) ^ (8 * w) = 2 * h := by
    have : 8 * w = (8 * w - 1) + 1 := by omega
    rw [this, Nat.pow_succ, hh]
    exact Nat.mul_comm _ _
  have hMi : (2 : Int) ^ (8 * w) = 2 * (h : Int) := by exact_mod_cast hM
  have hHi : (2 : Int) ^ (8 * w - 1) = (h : Int) := by exact_mod_cast hh.symm
  have h256 : (256 : Nat) ^ w = 2 * h := by
    rw [← hM, show (256 : Nat) = 2 ^ 8 by norm_num, ← Nat.pow_mul]
  rw [hHi] at lo hi
  have hpos : (0 : Int) < 2 * (h : Int) := by omega
  have hnn : 0 ≤ e % (2 * (h : Int)) := Int.emod_nonneg _ (by omega)
  have hlt : e % (2 * (h : Int)) < 2 * (h : Int) := Int.emod_lt_of_pos _ hpos
  obtain ⟨u, hu⟩ : ∃ u : Nat, (u : Int) = e % (2 * (h : Int)) :=
    ⟨(e % (2 * (h : Int))).toNat, Int.toNat_of_nonneg hnn⟩
  have hu2 : (e % (2 * (h : Int))).toNat = u := by rw [← hu]; simp
  have hul : u < 256 ^ w := by rw [h256]; omega
  unfold sle
  rw [length_storeInt]
  simp only [storeInt, hMi, hu2, ofLE_toLE _ _ hul, ← hh]
  rcases Int.lt_or_le e 0 with hneg | hge
  · have he : e % (2 * (h : Int)) = e + 2 * (h : Int) := by
      rw [← Int.add_mul_emod_self (b := 1), Int.one_mul]
      exact Int.emod_eq_of_lt (by omega) (by omega)
    rw [if_neg (by omega)]
    omega
  · have he : e % (2 * (h : Int)) = e := Int.emod_eq_of_lt hge (by omega)
    rw [if_pos (by omega)]
    omega

theorem storeElems_cons (w : Nat) (e : Int) (es : List Int) :
    storeElems w (e :: es) = storeInt w e ++ storeElems w es := by
  simp [storeElems]

theorem length_storeElems (w : Nat) (es : List Int) :
    (storeElems w es).length = w * es.length := by
  induction es with
  | nil => simp [storeElems]
  | cons e es ih =>
    rw [storeElems_cons, List.length_append, length_storeInt, ih, List.length_cons]
    ring

theorem drop_storeElems (w : Nat) (es : List Int) (i : Nat) :
    (storeElems w es).drop (w * i) = storeElems w (es.drop i) := by
  induction es generalizing i with
  | nil => simp [storeElems]
  | cons e es ih =>
    cases i with
    | zero => simp
    | succ i =>
      have h1 : w * (i + 1) = (storeInt w e).length + w * i := by
        rw [length_storeInt]; ring
      rw [storeElems_cons, h1, List.drop_append, ih]
      simp

theorem elemAt_storeElems (w : Nat) (es : List Int) (i : Nat) (hi : i < es.length) :
    elemAt w (storeElems w es) i = sle (storeInt w es[i]) := by
  unfold elemAt
  rw [drop_storeElems, List.drop_eq_getElem_cons hi, storeElems_cons]
  rw [List.take_left' (length_storeInt w _)]

/-- Reading back the elements of a stored array gives the array. -/
theorem elems_storeElems (w : Nat) (hw : 0 < w) (es : List Int)
    (hr : ∀ e ∈ es, -(2 : Int) ^ (8 * w - 1) ≤ e ∧ e < (2 : Int) ^ (8 * w - 1)) :
    elems w (storeElems w es) = es := by
  have hl : (storeElems w es).length / w = es.length := by
    rw [length_storeElems, Nat.mul_div_cancel_left _ hw]
  apply List.ext_getElem
  · simp [elems, hl]
  · intro i h1 h2
    simp only [elems, List.getElem_map, List.getElem_range]
    rw [elemAt_storeElems w es i h2]
    exact sle_storeInt w hw _ (hr _ (List.getElem_mem h2)).1 (hr _ (List.getElem_mem h2)).2

/-! ## Encoding and decoding a record -/

theorem wrap32_read (k nc : Nat) :
    ((NCHANNEL * k) % 2 ^ 32 * nc) % 2 ^ 32 = (nc * 4 * k) % 2 ^ 32 := by
  rw [Nat.mod_mul_mod, NCHANNEL]
  congr 1; ring

theorem wrap32_write (k nc : Nat) :
    ((k * nc) % 2 ^ 32 * NCHANNEL) % 2 ^ 32 = (nc * 4 * k) % 2 ^ 32 := by
  rw [Nat.mod_mul_mod, NCHANNEL]
  congr 1; ring

theorem write2CIFstream_plain (fp : XFILE) (hp : fp.plain) (p : Ptr) (fc nc k w : Nat)
    (hw : w = 1 ∨ w = 2 ∨ w = 4) :
    write2CIFstream (some fp) (some p) fc nc k w =
      if w * ((nc * 4 * k) % 2 ^ 32) ≠ 0 ∧
          p.block.length < p.off + w * ((nc * 4 * k) % 2 ^ 32) then Res.fault
      else Res.ok (true, { fp with fh := fp.fh ++ wireHeader 1 w fc (nc % 65536) k ++
              (p.block.drop p.off).take (w * ((nc * 4 * k) % 2 ^ 32)) }) := by
  have ha : isCifAllowedDatasize w = true := by
    rcases hw with h | h | h <;> simp [isCifAllowedDatasize, h]
  have hp2 : ∀ l, XFILE.plain { fp with fh := l } := fun l => hp
  simp only [write2CIFstream, ha, reduceCtorEq, if_false,
    writeCifHeader_plain fp ⟨1, w, fc, nc % 65536, k, none⟩ hp rfl hw, Res.bind_ok,
    writeEncodedFloats, xfwrite_plain _ _ _ _ _ (hp2 _), fwrite, wrap32_write]
  split <;> simp [List.append_assoc]

/-- Decoding a stream that starts with a complete, valid wire header. -/
theorem readCIFfromStream_wire (junk : CifData) (fp : XFILE) (hp : fp.plain)
    (w fc nc k : Nat) (data : List Nat)
    (hw : w = 1 ∨ w = 2 ∨ w = 4) (hfc : fc < 65536) (hnc : nc < 65536) (hk : k < 2 ^ 32)
    (hpos : 0 < (nc * 4 * k) % 2 ^ 32)
    (hs : fp.fh = wireHeader 1 w fc nc k ++ data) :
    readCIFfromStream junk fp =
      Res.ok (some { version := 1, datasize := w, firstcycle := fc, ncycle := nc, ncluster := k,
                     intensity := some
                       { block := data.take (w * ((nc * 4 * k) % 2 ^ 32)) ++
                           List.replicate ((nc * 4 * k) % 2 ^ 32 * w -
                             (data.take (w * ((nc * 4 * k) % 2 ^ 32))).length) 0,
                         off := 0 } },
              { fp with fh := data.drop (w * ((nc * 4 * k) % 2 ^ 32)) }) := by
  have ha : isCifAllowedDatasize w = true := by
    rcases hw with h | h | h <;> simp [isCifAllowedDatasize, h]
  have hw8 : w < 256 := by omega
  have hp2 : XFILE.plain { fp with fh := data } := hp
  unfold readCIFfromStream
  rw [readCifHeader_wire junk fp hp 1 w fc nc k data (by omega) hw8 hfc hnc hk hs]
  rw [if_neg (by simp), if_neg (by simp [ha])]
  simp only [Res.bind_ok, readCifIntensities, wrap32_read]
  rw [readEncodedFloats_null _ hp2 _ _ hw hpos]
  rfl

/-- The magic test of readCifHeader on the four bytes of str. -/
theorem strncmp_magic (a b c d : Nat) :
    strncmp [a, b, c, d] hd_str 3 = 0 ↔ (a = 67 ∧ b = 73 ∧ c = 70) := by
  simp only [strncmp, hd_str, List.headD_cons, List.tail_cons]
  constructor
  · intro h
    split_ifs at h <;> omega
  · rintro ⟨rfl, rfl, rfl⟩
    simp

/-- Reading the magic into str: the read cannot fault, and str differs from
"CIF" when the stream does not start with these three bytes. -/
theorem xfread_magic (fp : XFILE) (h : fp.fh.take 3 ≠ [67, 73, 70]) :
    ∃ blk n fp1, xfread [0, 0, 0, 0] 0 3 1 fp = Res.ok (blk, n, fp1) ∧
      strncmp blk hd_str 3 ≠ 0 := by
  obtain ⟨m, fh⟩ := fp
  simp only at h
  have z : strncmp [0, 0, 0, 0] hd_str 3 ≠ 0 := by
    rw [Ne, strncmp_magic]; omega
  cases m <;> rcases fh with _ | ⟨a, _ | ⟨b, _ | ⟨c, rest⟩⟩⟩
  all_goals simp only [xfread, fread, List.take, List.drop, List.length]
  all_goals first
    | exact ⟨_, _, _, rfl, z⟩
    | (rw [if_neg (by omega)]
       refine ⟨_, _, _, rfl, ?_⟩
       simp only [List.nil_append, List.cons_append, List.drop, Ne, strncmp_magic]
       first
         | omega
         | (rintro ⟨rfl, rfl, rfl⟩
            exact h rfl))

/-- A stream that does not start with the magic: readCifHeader returns NULL. -/
theorem readCifHeader_bad_magic (junk : CifData) (fp : XFILE)
    (h : fp.fh.take 3 ≠ [67, 73, 70]) :
    ∃ fp1, readCifHeader junk fp = Res.ok (none, fp1) := by
  obtain ⟨blk, n, fp1, h1, h2⟩ := xfread_magic fp h
  refine ⟨fp1, ?_⟩
  unfold readCifHeader
  rw [h1]
  simp only [Res.bind_ok]
  rw [if_pos h2]

/-! ## Adding a file to an aggregate -/

/-- The header parser on a stream that starts with a valid wire header. -/
theorem readCifHeader_valid (junk : CifData) (fp : XFILE) (hp : fp.plain)
    (w fc nc k : Nat) (rest : List Nat)
    (hw : w = 1 ∨ w = 2 ∨ w = 4) (hfc : fc < 65536) (hnc : nc < 65536) (hk : k < 2 ^ 32)
    (hs : fp.fh = wireHeader 1 w fc nc k ++ rest) :
    readCifHeader junk fp =
      Res.ok (some { version := 1, datasize := w, firstcycle := fc, ncycle := nc,
                     ncluster := k, intensity := none }, { fp with fh := rest }) := by
  have ha : isCifAllowedDatasize w = true := by
    rcases hw with h | h | h <;> simp [isCifAllowedDatasize, h]
  rw [readCifHeader_wire junk fp hp 1 w fc nc k rest (by omega) (by omega) hfc hnc hk hs]
  rw [if_neg (by simp), if_neg (by simp [ha])]

/-- The destination offset of cif_add_file when nothing wraps. -/
theorem wrap32_offset (fc k : Nat) (h1 : 1 ≤ fc) (hfc : fc < 65536)
    (hlt : (fc - 1) * k * 4 < 2 ^ 32) :
    ((((fc + 2 ^ 32 - 1) % 2 ^ 32 * k) % 2 ^ 32) * NCHANNEL) % 2 ^ 32 = (fc - 1) * k * 4 := by
  have e : (fc + 2 ^ 32 - 1) % 2 ^ 32 = fc - 1 := by omega
  rw [e, Nat.mod_mul_mod, NCHANNEL]
  exact Nat.mod_eq_of_lt hlt

/-- Adding a file to an aggregate that has a buffer of width 1 or 2: once the
file is open, its header read and found consistent, the file's elements are
read at the destination offset of the aggregate's block. -/
theorem cif_add_file_existing (fs : List Char → Option (List Nat)) (junk : CifData)
    (name : List Char) (mode : XFILE_MODE) (fp : XFILE) (cif0 : CifData) (p : Ptr)
    (w fc nc k : Nat) (body : List Nat)
    (hopen : xfopen fs name mode = Res.ok (some fp)) (hp : fp.plain)
    (hw : w = 1 ∨ w = 2) (hfc : fc < 65536) (hnc : nc < 65536) (hk : k < 2 ^ 32)
    (hs : fp.fh = wireHeader 1 w fc nc k ++ body)
    (hbuf : cif0.intensity = some p)
    (hcv : cif0.version = 1) (hcw : cif0.datasize = w) (hck : cif0.ncluster = k)
    (hpos : 0 < (nc * 4 * k) % 2 ^ 32) :
    cif_add_file fs junk (some name) mode (some cif0) =
      (fread p.block
          (p.off + w * (((((fc + 2 ^ 32 - 1) % 2 ^ 32 * k) % 2 ^ 32) * NCHANNEL) % 2 ^ 32))
          w ((nc * 4 * k) % 2 ^ 32) body).bind fun r =>
        Res.ok (some { cif0 with intensity := some { block := r.1, off := p.off } }) := by
  have hp2 : XFILE.plain { fp with fh := body } := hp
  have hcons : consistent_cif_headers cif0
      { version := 1, datasize := w, firstcycle := fc, ncycle := nc, ncluster := k,
        intensity := none } = true := by
    simp [consistent_cif_headers, hcv, hcw, hck]
  have hw2 : 1 = w ∨ 2 = w ∨ 4 = w := by omega
  simp only [cif_add_file, hopen, Res.bind_ok,
    readCifHeader_valid junk fp hp w fc nc k body (by omega) hfc hnc hk hs, hbuf, hcons]
  rw [if_neg (by simp)]
  simp only [readCifIntensities, wrap32_read, readEncodedFloats, hcw, hck]
  rw [if_neg (not_not.mpr hw2), if_neg (by omega)]
  rcases hw with rfl | rfl
  · simp only [xfread_plain _ _ _ _ _ hp2, Nat.one_mul]
    cases fread p.block _ 1 _ body <;> rfl
  · simp only [xfread_plain _ _ _ _ _ hp2]
    cases fread p.block _ 2 _ body <;> rfl

/-- Adding a file to an aggregate that has a buffer of width 4: the switch on
the datasize has no case 4, mem stays NULL, the file's elements are read into a
block of their own and the aggregate is returned as it was. -/
theorem cif_add_file_width4 (fs : List Char → Option (List Nat)) (junk : CifData)
    (name : List Char) (mode : XFILE_MODE) (fp : XFILE) (cif0 : CifData) (p : Ptr)
    (fc nc k : Nat) (body : List Nat)
    (hopen : xfopen fs name mode = Res.ok (some fp)) (hp : fp.plain)
    (hfc : fc < 65536) (hnc : nc < 65536) (hk : k < 2 ^ 32)
    (hs : fp.fh = wireHeader 1 4 fc nc k ++ body)
    (hbuf : cif0.intensity = some p)
    (hcv : cif0.version = 1) (hcw : cif0.datasize = 4) (hck : cif0.ncluster = k)
    (hpos : 0 < (nc * 4 * k) % 2 ^ 32) :
    cif_add_file fs junk (some name) mode (some cif0) = Res.ok (some cif0) := by
  have hp2 : XFILE.plain { fp with fh := body } := hp
  have hcons : consistent_cif_headers cif0
      { version := 1, datasize := 4, firstcycle := fc, ncycle := nc, ncluster := k,
        intensity := none } = true := by
    simp [consistent_cif_headers, hcv, hcw, hck]
  simp only [cif_add_file, hopen, Res.bind_ok,
    readCifHeader_valid junk fp hp 4 fc nc k body (by omega) hfc hnc hk hs, hbuf, hcons]
  rw [if_neg (by simp)]
  simp only [readCifIntensities, wrap32_read, hcw]
  rw [readEncodedFloats_null _ hp2 _ _ (by omega) hpos]
  rfl

/-- The first file: the aggregate has no buffer yet. The number of clusters is
taken from the file, a zeroed block is allocated, and the call goes on as for
an aggregate that has this block. -/
theorem cif_add_file_first (fs : List Char → Option (List Nat)) (junk : CifData)
    (name : List Char) (mode : XFILE_MODE) (fp : XFILE) (cif0 : CifData)
    (w fc nc k : Nat) (body : List Nat)
    (hopen : xfopen fs name mode = Res.ok (some fp)) (hp : fp.plain)
    (hw : w = 1 ∨ w = 2 ∨ w = 4) (hfc : fc < 65536) (hnc : nc < 65536) (hk : k < 2 ^ 32)
    (hs : fp.fh = wireHeader 1 w fc nc k ++ body)
    (hbuf : cif0.intensity = none) :
    cif_add_file fs junk (some name) mode (some cif0) =
      cif_add_file fs junk (some name) mode
        (some { cif0 with
                  ncluster := k,
                  intensity := some
                    { block := List.replicate
                        ((cif0.ncycle * 4 * k) % 2 ^ 32 * cif0.datasize) 0,
                      off := 0 } }) := by
  simp only [cif_add_file, hopen, Res.bind_ok,
    readCifHeader_valid junk fp hp w fc nc k body hw hfc hnc hk hs, hbuf]
  have e : (cif0.ncycle * k % 2 ^ 32 * NCHANNEL) % 2 ^ 32 = (cif0.ncycle * 4 * k) % 2 ^ 32 := by
    rw [Nat.mul_comm cif0.ncycle k]; exact wrap32_write k cif0.ncycle
  simp only [e]

/-- A file whose header differs from the aggregate's in version, datasize or
number of clusters is refused: the aggregate is freed and NULL returned. -/
theorem cif_add_file_inconsistent (fs : List Char → Option (List Nat)) (junk : CifData)
    (name : List Char) (mode : XFILE_MODE) (fp : XFILE) (cif0 : CifData) (p : Ptr)
    (w fc nc k : Nat) (body : List Nat)
    (hopen : xfopen fs name mode = Res.ok (some fp)) (hp : fp.plain)
    (hw : w = 1 ∨ w = 2 ∨ w = 4) (hfc : fc < 65536) (hnc : nc < 65536) (hk : k < 2 ^ 32)
    (hs : fp.fh = wireHeader 1 w fc nc k ++ body)
    (hbuf : cif0.intensity = some p)
    (hne : cif0.version ≠ 1 ∨ cif0.datasize ≠ w ∨ cif0.ncluster ≠ k) :
    cif_add_file fs junk (some name) mode (some cif0) = Res.ok none := by
  have hcons : consistent_cif_headers cif0
      { version := 1, datasize := w, firstcycle := fc, ncycle := nc, ncluster := k,
        intensity := none } = false := by
    simp only [consistent_cif_headers]
    rcases hne with h | h | h
    · rw [if_pos h]
    · split_ifs <;> rfl
    · split_ifs <;> rfl
  simp only [cif_add_file, hopen, Res.bind_ok,
    readCifHeader_valid junk fp hp w fc nc k body hw hfc hnc hk hs, hbuf, hcons]
  rfl

/-- Adding a complete file that fits: the block of the aggregate with the
file's bytes in place at the destination. -/
theorem cif_add_file_place (fs : List Char → Option (List Nat)) (junk : CifData)
    (name : List Char) (mode : XFILE_MODE) (fp : XFILE) (cif0 : CifData) (p : Ptr)
    (w fc nc k : Nat) (data rest : List Nat)
    (hopen : xfopen fs name mode = Res.ok (some fp)) (hp : fp.plain)
    (hw : w = 1 ∨ w = 2) (h1 : 1 ≤ fc) (hfc : fc < 65536) (hnc : nc < 65536)
    (hk : k < 2 ^ 32)
    (hs : fp.fh = wireHeader 1 w fc nc k ++ (data ++ rest))
    (hbuf : cif0.intensity = some p)
    (hcv : cif0.version = 1) (hcw : cif0.datasize = w) (hck : cif0.ncluster = k)
    (hpos : 0 < nc * 4 * k) (hlt : nc * 4 * k < 2 ^ 32)
    (holt : (fc - 1) * k * 4 < 2 ^ 32)
    (hd : data.length = w * (nc * 4 * k))
    (hfit : p.off + w * ((fc - 1) * k * 4) + data.length ≤ p.block.length) :
    cif_add_file fs junk (some name) mode (some cif0) =
      Res.ok (some { cif0 with intensity := (some
        { block := p.block.take (p.off + w * ((fc - 1) * k * 4)) ++ data ++
            p.block.drop (p.off + w * ((fc - 1) * k * 4) + data.length),
          off := p.off }) }) := by
  have hmod : (nc * 4 * k) % 2 ^ 32 = nc * 4 * k := Nat.mod_eq_of_lt hlt
  rw [cif_add_file_existing fs junk name mode fp cif0 p w fc nc k (data ++ rest) hopen hp hw
    hfc hnc hk hs hbuf hcv hcw hck (by omega)]
  rw [wrap32_offset fc k h1 hfc holt, hmod, fread_append _ _ _ _ _ _ hd hfit]
  rfl

/-- One step of the composition: adding the single-cycle file of cycle i + 1
to the aggregate that holds the first i cycles. -/
theorem cif_add_file_aggState (fs : List Char → Option (List Nat)) (junk : CifData)
    (mode : XFILE_MODE) (name : Nat → List Char) (n k w : Nat) (full : List Nat)
    (hw : w = 1 ∨ w = 2) (hn16 : n < 65536) (hk : 0 < k) (hlt : n * 4 * k < 2 ^ 32)
    (hfull : full.length = n * 4 * k * w)
    (hfiles : ∀ i, i < n → xfopen fs (name i) mode =
      Res.ok (some { mode := XFILE_MODE.XFILE_RAW,
                     fh := wireHeader 1 w (i + 1) 1 k ++
                       (full.drop (i * (4 * k * w))).take (4 * k * w) }))
    (i : Nat) (hi : i < n) :
    cif_add_file fs junk (some (name i)) mode (some (aggState n k w full i)) =
      Res.ok (some (aggState n k w full (i + 1))) := by
  have hB : 0 < 4 * k * w := by
    rcases hw with rfl | rfl <;> omega
  have hfl : full.length = n * (4 * k * w) := by rw [hfull]; ring
  have hle : (i + 1) * (4 * k * w) ≤ n * (4 * k * w) := Nat.mul_le_mul_right _ hi
  have hle0 : i * (4 * k * w) ≤ n * (4 * k * w) := Nat.mul_le_mul_right _ (by omega)
  have hsplit : (i + 1) * (4 * k * w) = i * (4 * k * w) + 4 * k * w := by ring
  have hsub : (n - i) * (4 * k * w) = (n - (i + 1)) * (4 * k * w) + 4 * k * w := by
    have : n - i = (n - (i + 1)) + 1 := by omega
    rw [this]; ring
  have hoff : w * ((i + 1 - 1) * k * 4) = i * (4 * k * w) := by
    rw [Nat.add_sub_cancel]; ring
  have hsl : ((full.drop (i * (4 * k * w))).take (4 * k * w)).length = 4 * k * w := by
    rw [List.length_take, List.length_drop, hfl]; omega
  have htl : (full.take (i * (4 * k * w))).length = i * (4 * k * w) := by
    rw [List.length_take, hfl]; omega
  have hk32 : k < 2 ^ 32 := by nlinarith
  have h4k : 1 * 4 * k < 2 ^ 32 := by nlinarith
  have hol : (i + 1 - 1) * k * 4 < 2 ^ 32 := by
    rw [Nat.add_sub_cancel]; nlinarith
  rw [cif_add_file_place fs junk (name i) mode _ (aggState n k w full i)
    { block := full.take (i * (4 * k * w)) ++ List.replicate ((n - i) * (4 * k * w)) 0,
      off := 0 }
    w (i + 1) 1 k ((full.drop (i * (4 * k * w))).take (4 * k * w)) []
    (hfiles i hi) (Or.inr rfl) hw (by omega) (by omega) (by omega) hk32
    (by simp) rfl rfl rfl rfl (by omega) h4k hol (by rw [hsl]; ring)
    (by simp only [List.length_append, List.length_replicate, htl, hsl, hoff]; omega)]
  have t1 : (full.take (i * (4 * k * w)) ++ List.replicate ((n - i) * (4 * k * w)) 0).take
      (i * (4 * k * w)) = full.take (i * (4 * k * w)) := List.take_left' htl
  have t2 : (full.take (i * (4 * k * w)) ++ List.replicate ((n - i) * (4 * k * w)) 0).drop
      (i * (4 * k * w) + 4 * k * w) = List.replicate ((n - (i + 1)) * (4 * k * w)) 0 := by
    have e : i * (4 * k * w) + 4 * k * w = (full.take (i * (4 * k * w))).length + 4 * k * w := by
      rw [htl]
    rw [e, List.drop_append, List.drop_replicate, hsub, Nat.add_sub_cancel]
  have t3 : full.take (i * (4 * k * w)) ++ (full.drop (i * (4 * k * w))).take (4 * k * w)
      = full.take ((i + 1) * (4 * k * w)) := by
    rw [hsplit, List.take_add]
  simp only [aggState, Nat.zero_add, hoff, hsl, t1, t2, t3]

/-- The loop over the files of cycles i + 1 to n. -/
theorem cif_add_files_aggState (fs : List Char → Option (List Nat)) (junk : CifData)
    (mode : XFILE_MODE) (name : Nat → List Char) (n k w : Nat) (full : List Nat)
    (hw : w = 1 ∨ w = 2) (hn16 : n < 65536) (hk : 0 < k) (hlt : n * 4 * k < 2 ^ 32)
    (hfull : full.length = n * 4 * k * w)
    (hfiles : ∀ i, i < n → xfopen fs (name i) mode =
      Res.ok (some { mode := XFILE_MODE.XFILE_RAW,
                     fh := wireHeader 1 w (i + 1) 1 k ++
                       (full.drop (i * (4 * k * w))).take (4 * k * w) }))
    (j i : Nat) (hij : i + j = n) :
    cif_add_files fs junk mode ((List.range' i j).map name) (some (aggState n k w full i)) =
      Res.ok (some (aggState n k w full n)) := by
  induction j generalizing i with
  | zero =>
    have : i = n := by omega
    subst this
    rfl
  | succ j ih =>
    simp only [List.range', List.map_cons, cif_add_files]
    rw [cif_add_file_aggState fs junk mode name n k w full hw hn16 hk hlt hfull hfiles i
      (by omega)]
    simp only [Res.bind_ok]
    exact ih (i + 1) (by omega)

/-- A file whose header has a version other than 1 or a datasize outside 1,
2, 4 stops cif_add_file at the assertions of readCifHeader. -/
theorem cif_add_file_bad_header (fs : List Char → Option (List Nat)) (junk : CifData)
    (name : List Char) (mode : XFILE_MODE) (fp : XFILE) (cif : Option CifData)
    (v w fc nc k : Nat) (body : List Nat)
    (hopen : xfopen fs name mode = Res.ok (some fp)) (hp : fp.plain)
    (hv : v < 256) (hw : w < 256) (hfc : fc < 65536) (hnc : nc < 65536) (hk : k < 2 ^ 32)
    (hs : fp.fh = wireHeader v w fc nc k ++ body)
    (hbad : ¬ (v = 1 ∧ (w = 1 ∨ w = 2 ∨ w = 4))) :
    cif_add_file fs junk (some name) mode cif = Res.abort := by
  have hh : readCifHeader junk fp = Res.abort := by
    rw [readCifHeader_wire junk fp hp v w fc nc k body hv hw hfc hnc hk hs]
    by_cases h1 : 1 = v
    · rw [if_neg (not_not.mpr h1), if_pos]
      simp only [isCifAllowedDatasize]
      rw [if_neg (by omega)]
    · rw [if_pos h1]
  simp only [cif_add_file, hopen, Res.bind_ok, hh, Res.bind_abort]

/-- A consistent file whose element count is 0 (as a 32-bit product) stops at
the assertion nfloat > 0. -/
theorem cif_add_file_empty (fs : List Char → Option (List Nat)) (junk : CifData)
    (name : List Char) (mode : XFILE_MODE) (fp : XFILE) (cif0 : CifData) (p : Ptr)
    (w fc nc k : Nat) (body : List Nat)
    (hopen : xfopen fs name mode = Res.ok (some fp)) (hp : fp.plain)
    (hw : w = 1 ∨ w = 2 ∨ w = 4) (hfc : fc < 65536) (hnc : nc < 65536) (hk : k < 2 ^ 32)
    (hs : fp.fh = wireHeader 1 w fc nc k ++ body)
    (hbuf : cif0.intensity = some p)
    (hcv : cif0.version = 1) (hcw : cif0.datasize = w) (hck : cif0.ncluster = k)
    (hzero : (nc * 4 * k) % 2 ^ 32 = 0) :
    cif_add_file fs junk (some name) mode (some cif0) = Res.abort := by
  have hcons : consistent_cif_headers cif0
      { version := 1, datasize := w, firstcycle := fc, ncycle := nc, ncluster := k,
        intensity := none } = true := by
    simp [consistent_cif_headers, hcv, hcw, hck]
  have hw2 : 1 = w ∨ 2 = w ∨ 4 = w := by omega
  simp only [cif_add_file, hopen, Res.bind_ok,
    readCifHeader_valid junk fp hp w fc nc k body hw hfc hnc hk hs, hbuf, hcons]
  rw [if_neg (by simp)]
  simp only [readCifIntensities, wrap32_read, readEncodedFloats, hzero]
  rw [if_neg (not_not.mpr hw2), if_pos (by omega)]
  rfl

/-! ## The properties C1 to C10 of the specification -/

/-- C1 as stated fails. A record of two cycles and no cluster is encoded to a
13-byte stream, and decoding that stream stops at the assertion nfloat > 0
instead of returning the record. A record of 1024 cycles and 2 ^ 20 clusters
(2 ^ 32 elements) is encoded to its header alone, the 32-bit element count
having wrapped to 0, and decoding stops at the same assertion. -/
theorem C1_round_trip_fails :
    (writeCIFtoStream
        (some { version := 1, datasize := 2, firstcycle := 1, ncycle := 2, ncluster := 0,
                intensity := some { block := [], off := 0 } })
        (some { mode := XFILE_MODE.XFILE_RAW, fh := [] })
      = Res.ok (true, some { mode := XFILE_MODE.XFILE_RAW,
                             fh := [67, 73, 70, 1, 2, 1, 0, 2, 0, 0, 0, 0, 0] }) ∧
    readCIFfromStream new_cif
        { mode := XFILE_MODE.XFILE_RAW, fh := [67, 73, 70, 1, 2, 1, 0, 2, 0, 0, 0, 0, 0] }
      = Res.abort) ∧
    (writeCIFtoStream
        (some { version := 1, datasize := 1, firstcycle := 1, ncycle := 1024,
                ncluster := 1048576,
                intensity := some { block := List.replicate 4294967296 0, off := 0 } })
        (some { mode := XFILE_MODE.XFILE_RAW, fh := [] })
      = Res.ok (true, some { mode := XFILE_MODE.XFILE_RAW,
                             fh := [67, 73, 70, 1, 1, 1, 0, 0, 4, 0, 0, 16, 0] }) ∧
    readCIFfromStream new_cif
        { mode := XFILE_MODE.XFILE_RAW, fh := [67, 73, 70, 1, 1, 1, 0, 0, 4, 0, 0, 16, 0] }
      = Res.abort) := by
  decide

/-- C1 (amended): round trip. For a header with version 1, sample width w in
1, 2, 4, any 16-bit firstCycle and cycleCount and 32-bit clusterCount whose
product cycleCount * 4 * clusterCount is positive and below 2 ^ 32, and every
buffer of that many w-byte signed elements, writeCIFtoStream produces the wire
header followed by the buffer, and readCIFfromStream on that stream returns the
same five header fields and the same buffer, byte for byte and element for
element. -/
theorem C1_round_trip (junk : CifData) (out : XFILE) (w fc nc k : Nat) (es : List Int)
    (hout : out.plain) (hempty : out.fh = [])
    (hw : w = 1 ∨ w = 2 ∨ w = 4) (hfc : fc < 65536) (hnc : nc < 65536) (hk : k < 2 ^ 32)
    (hlen : es.length = nc * 4 * k)
    (hrange : ∀ e ∈ es, -(2 : Int) ^ (8 * w - 1) ≤ e ∧ e < (2 : Int) ^ (8 * w - 1))
    (hpos : 0 < nc * 4 * k) (hlt : nc * 4 * k < 2 ^ 32) :
    writeCIFtoStream
        (some { version := 1, datasize := w, firstcycle := fc, ncycle := nc, ncluster := k,
                intensity := some { block := storeElems w es, off := 0 } })
        (some out)
      = Res.ok (true, some { out with fh := wireHeader 1 w fc nc k ++ storeElems w es }) ∧
    readCIFfromStream junk { out with fh := wireHeader 1 w fc nc k ++ storeElems w es }
      = Res.ok (some { version := 1, datasize := w, firstcycle := fc, ncycle := nc,
                       ncluster := k, intensity := some { block := storeElems w es, off := 0 } },
                { out with fh := [] }) ∧
    elems w (storeElems w es) = es := by
  have hmod : (nc * 4 * k) % 2 ^ 32 = nc * 4 * k := Nat.mod_eq_of_lt hlt
  have hbl : (storeElems w es).length = w * (nc * 4 * k) := by
    rw [length_storeElems, hlen]
  refine ⟨?_, ?_, elems_storeElems w (by omega) es hrange⟩
  · simp only [writeCIFtoStream]
    rw [write2CIFstream_plain out hout _ fc nc k w hw]
    simp only [hmod, hbl]
    rw [if_neg (by omega)]
    simp only [Res.bind_ok, hempty, List.nil_append, Nat.mod_eq_of_lt hnc, List.drop_zero]
    rw [List.take_of_length_le (by omega)]
  · have hp2 : XFILE.plain { out with fh := wireHeader 1 w fc nc k ++ storeElems w es } := hout
    rw [readCIFfromStream_wire junk _ hp2 w fc nc k (storeElems w es) hw hfc hnc hk
      (by omega) rfl]
    simp only [hmod]
    rw [List.take_of_length_le (by omega), List.drop_of_length_le (by omega), hbl]
    have : nc * 4 * k * w - w * (nc * 4 * k) = 0 := by
      rw [Nat.mul_comm]; omega
    simp [this]

/-- Scenario A of the specification: two cycles, three clusters, width 2. -/
theorem C1_round_trip_witness :
    writeCIFtoStream
        (some { version := 1, datasize := 2, firstcycle := 1, ncycle := 2, ncluster := 3,
                intensity := some
                  { block := storeElems 2
                      [1, -2, 3, -4, 5, -6, 7, -8, 9, -10, 11, -12, 300, -300, 32767, -32768,
                       17, 18, 19, 20, 21, 22, 23, 24],
                    off := 0 } })
        (some { mode := XFILE_MODE.XFILE_RAW, fh := [] })
      = Res.ok (true, some
          { mode := XFILE_MODE.XFILE_RAW,
            fh := (wireHeader 1 2 1 2 3 ++ storeElems 2
              [1, -2, 3, -4, 5, -6, 7, -8, 9, -10, 11, -12, 300, -300, 32767, -32768,
               17, 18, 19, 20, 21, 22, 23, 24]) }) ∧
    readCIFfromStream new_cif
        { mode := XFILE_MODE.XFILE_RAW,
          fh := (wireHeader 1 2 1 2 3 ++ storeElems 2
            [1, -2, 3, -4, 5, -6, 7, -8, 9, -10, 11, -12, 300, -300, 32767, -32768,
             17, 18, 19, 20, 21, 22, 23, 24]) }
      = Res.ok (some { version := 1, datasize := 2, firstcycle := 1, ncycle := 2, ncluster := 3,
                       intensity := some
                         { block := storeElems 2
                             [1, -2, 3, -4, 5, -6, 7, -8, 9, -10, 11, -12, 300, -300, 32767,
                              -32768, 17, 18, 19, 20, 21, 22, 23, 24],
                           off := 0 } },
                { mode := XFILE_MODE.XFILE_RAW, fh := [] }) ∧
    elems 2 (storeElems 2
        [1, -2, 3, -4, 5, -6, 7, -8, 9, -10, 11, -12, 300, -300, 32767, -32768,
         17, 18, 19, 20, 21, 22, 23, 24])
      = [1, -2, 3, -4, 5, -6, 7, -8, 9, -10, 11, -12, 300, -300, 32767, -32768,
         17, 18, 19, 20, 21, 22, 23, 24] :=
  C1_round_trip new_cif { mode := XFILE_MODE.XFILE_RAW, fh := [] } 2 1 2 3
    [1, -2, 3, -4, 5, -6, 7, -8, 9, -10, 11, -12, 300, -300, 32767, -32768,
     17, 18, 19, 20, 21, 22, 23, 24]
    (by decide) rfl (by decide) (by decide) (by decide) (by decide) rfl (by decide)
    (by decide) (by decide)

/-- C2: wire format of the header. For a header with version 1 and sample
width in 1, 2, 4 (fields within their C types), writeCifHeader appends exactly
13 bytes to a raw stream: the ASCII bytes C, I, F with no NUL, the version, the
sample width, then firstCycle and cycleCount as 2 little-endian bytes each and
clusterCount as 4 little-endian bytes. -/
theorem C2_writeCifHeader_wire_format (fp : XFILE) (header : CifData) (hp : fp.plain)
    (hv : header.version = 1)
    (hw : header.datasize = 1 ∨ header.datasize = 2 ∨ header.datasize = 4)
    (hfc : header.firstcycle < 65536) (hnc : header.ncycle < 65536)
    (hk : header.ncluster < 2 ^ 32) :
    ∃ bytes : List Nat,
      writeCifHeader fp header = Res.ok (true, { fp with fh := fp.fh ++ bytes }) ∧
      bytes.length = 13 ∧
      bytes = [Char.toNat 'C', Char.toNat 'I', Char.toNat 'F',
               header.version, header.datasize,
               header.firstcycle % 256, header.firstcycle / 256,
               header.ncycle % 256, header.ncycle / 256,
               header.ncluster % 256, header.ncluster / 256 % 256,
               header.ncluster / 65536 % 256, header.ncluster / 16777216] := by
  refine ⟨_, writeCifHeader_plain fp header hp hv hw, ?_, ?_⟩
  · simp [wireHeader, length_toLE]
  · have c1 : Char.toNat 'C' = 67 := by decide
    have c2 : Char.toNat 'I' = 73 := by decide
    have c3 : Char.toNat 'F' = 70 := by decide
    have e1 : header.version % 256 = header.version := by omega
    have e2 : header.datasize % 256 = header.datasize := by omega
    have e3 : header.firstcycle / 256 % 256 = header.firstcycle / 256 := by omega
    have e4 : header.ncycle / 256 % 256 = header.ncycle / 256 := by omega
    have e5 : header.ncluster / 256 / 256 % 256 = header.ncluster / 65536 % 256 := by omega
    have e6 : header.ncluster / 256 / 256 / 256 % 256 = header.ncluster / 16777216 := by omega
    simp only [wireHeader, toLE, c1, c2, c3, e1, e2, e3, e4, e5, e6]
    rfl

/-- An instance of C2: the header of scenario A with 70000 clusters. -/
theorem C2_writeCifHeader_wire_format_witness :
    ∃ bytes : List Nat,
      writeCifHeader { mode := XFILE_MODE.XFILE_RAW, fh := [] }
          { version := 1, datasize := 2, firstcycle := 258, ncycle := 2, ncluster := 70000,
            intensity := none }
        = Res.ok (true, { mode := XFILE_MODE.XFILE_RAW, fh := [] ++ bytes }) ∧
      bytes.length = 13 ∧
      bytes = [Char.toNat 'C', Char.toNat 'I', Char.toNat 'F', 1, 2,
               258 % 256, 258 / 256, 2 % 256, 2 / 256,
               70000 % 256, 70000 / 256 % 256, 70000 / 65536 % 256, 70000 / 16777216] :=
  C2_writeCifHeader_wire_format { mode := XFILE_MODE.XFILE_RAW, fh := [] }
    { version := 1, datasize := 2, firstcycle := 258, ncycle := 2, ncluster := 70000,
      intensity := none }
    (by decide) rfl (by decide) (by decide) (by decide) (by decide)

/-- C3 (the defect): for every stream that does not start with the three
bytes "CIF", or holds fewer than three bytes, readCifHeader returns NULL, and
readCIFfromStream, which passes that header on without a NULL test, accesses
memory through NULL instead of reporting a format error. -/
theorem C3_bad_magic_null_dereference (junk : CifData) (fp : XFILE)
    (h : fp.fh.take 3 ≠ [67, 73, 70]) :
    (∃ fp1, readCifHeader junk fp = Res.ok (none, fp1)) ∧
    readCIFfromStream junk fp = Res.fault := by
  obtain ⟨fp1, h1⟩ := readCifHeader_bad_magic junk fp h
  refine ⟨⟨fp1, h1⟩, ?_⟩
  unfold readCIFfromStream
  rw [h1]
  rfl

/-- The failing input of C3: a 13-byte stream whose magic is "CIG". -/
theorem C3_bad_magic_null_dereference_witness :
    (∃ fp1, readCifHeader new_cif
        { mode := XFILE_MODE.XFILE_RAW, fh := [67, 73, 71, 1, 2, 1, 0, 1, 0, 1, 0, 0, 0] }
      = Res.ok (none, fp1)) ∧
    readCIFfromStream new_cif
        { mode := XFILE_MODE.XFILE_RAW, fh := [67, 73, 71, 1, 2, 1, 0, 1, 0, 1, 0, 0, 0] }
      = Res.fault :=
  C3_bad_magic_null_dereference new_cif
    { mode := XFILE_MODE.XFILE_RAW, fh := [67, 73, 71, 1, 2, 1, 0, 1, 0, 1, 0, 0, 0] }
    (by decide)

/-- C4 as stated fails: a valid header for one cycle of one cluster of width 1
(four bytes of data) followed by a single byte. Decoding reports no error: it
returns a four-byte buffer, the byte read and three zeros. -/
theorem C4_short_read_not_reported :
    readCifIntensities { mode := XFILE_MODE.XFILE_RAW, fh := [7] }
        (some { version := 1, datasize := 1, firstcycle := 1, ncycle := 1, ncluster := 1,
                intensity := none })
        none
      = Res.ok (some { block := [7, 0, 0, 0], off := 0 },
                { mode := XFILE_MODE.XFILE_RAW, fh := [] }) ∧
    readCIFfromStream new_cif
        { mode := XFILE_MODE.XFILE_RAW, fh := [67, 73, 70, 1, 1, 1, 0, 1, 0, 1, 0, 0, 0, 7] }
      = Res.ok (some { version := 1, datasize := 1, firstcycle := 1, ncycle := 1, ncluster := 1,
                       intensity := some { block := [7, 0, 0, 0], off := 0 } },
                { mode := XFILE_MODE.XFILE_RAW, fh := [] }) := by
  decide

/-- C4 (amended): a short read is not reported. For every valid header whose
element count cycleCount * 4 * clusterCount is below 2 ^ 32, if the stream
holds fewer than cycleCount * 4 * clusterCount * sampleWidth bytes after the
header, decoding returns a record all the same: its buffer has the full size
and holds the bytes the stream supplied followed by zero bytes, and the stream
is left empty. -/
theorem C4_short_read_zero_filled (junk : CifData) (fp : XFILE) (hp : fp.plain)
    (w fc nc k : Nat) (data : List Nat)
    (hw : w = 1 ∨ w = 2 ∨ w = 4) (hfc : fc < 65536) (hnc : nc < 65536) (hk : k < 2 ^ 32)
    (hlt : nc * 4 * k < 2 ^ 32)
    (hs : fp.fh = wireHeader 1 w fc nc k ++ data)
    (hshort : data.length < nc * 4 * k * w) :
    readCIFfromStream junk fp =
      Res.ok (some { version := 1, datasize := w, firstcycle := fc, ncycle := nc, ncluster := k,
                     intensity := some
                       { block := data ++ List.replicate (nc * 4 * k * w - data.length) 0,
                         off := 0 } },
              { fp with fh := [] }) := by
  have hmod : (nc * 4 * k) % 2 ^ 32 = nc * 4 * k := Nat.mod_eq_of_lt hlt
  have hpos : 0 < nc * 4 * k := by
    rcases Nat.eq_zero_or_pos (nc * 4 * k) with h0 | h0
    · rw [h0] at hshort; simp at hshort
    · exact h0
  have hle : data.length ≤ w * (nc * 4 * k) := by
    rw [Nat.mul_comm]; omega
  rw [readCIFfromStream_wire junk fp hp w fc nc k data hw hfc hnc hk (by omega) hs]
  simp only [hmod]
  rw [List.take_of_length_le hle, List.drop_of_length_le hle]

/-- An instance of C4: scenario A (24 elements of width 2) cut after 5 bytes. -/
theorem C4_short_read_zero_filled_witness :
    readCIFfromStream new_cif
        { mode := XFILE_MODE.XFILE_RAW, fh := wireHeader 1 2 1 2 3 ++ [1, 0, 2, 0, 3] }
      = Res.ok (some { version := 1, datasize := 2, firstcycle := 1, ncycle := 2, ncluster := 3,
                       intensity := some
                         { block := [1, 0, 2, 0, 3] ++
                             List.replicate (2 * 4 * 3 * 2 - [1, 0, 2, 0, 3].length) 0,
                           off := 0 } },
                { mode := XFILE_MODE.XFILE_RAW, fh := [] }) :=
  C4_short_read_zero_filled new_cif
    { mode := XFILE_MODE.XFILE_RAW, fh := wireHeader 1 2 1 2 3 ++ [1, 0, 2, 0, 3] }
    (by decide) 2 1 2 3 [1, 0, 2, 0, 3]
    (by decide) (by decide) (by decide) (by decide) (by decide) rfl (by decide)

/-- C5 as stated fails: for one cycle of 2 ^ 30 + 1 clusters of width 1 the
32-bit product wraps to 4, and readCifIntensities allocates and reads 4
elements, not 2 ^ 32 + 4. -/
theorem C5_size_wraps_at_32_bits :
    readCifIntensities { mode := XFILE_MODE.XFILE_RAW, fh := [1, 2, 3, 4, 5, 6] }
        (some { version := 1, datasize := 1, firstcycle := 1, ncycle := 1,
                ncluster := 1073741825, intensity := none })
        none
      = Res.ok (some { block := [1, 2, 3, 4], off := 0 },
                { mode := XFILE_MODE.XFILE_RAW, fh := [5, 6] }) ∧
    [1, 2, 3, 4].length ≠ 1 * 4 * 1073741825 := by
  decide

/-- C5 (amended): decoded buffer size. For every header with sample width in
1, 2, 4, the number of elements n that readCifIntensities allocates is the
product cycleCount * 4 * clusterCount reduced modulo 2 ^ 32: if n is 0 the call
stops at the assertion nfloat > 0; otherwise it returns a fresh buffer of
exactly n elements (n * sampleWidth bytes) and takes at most that many bytes
off the stream. n is the mathematical product when that is below 2 ^ 32. -/
theorem C5_decoded_size_mod_2_32 (fp : XFILE) (hp : fp.plain) (h : CifData)
    (hw : h.datasize = 1 ∨ h.datasize = 2 ∨ h.datasize = 4) :
    (h.ncycle * 4 * h.ncluster % 2 ^ 32 = 0 →
      readCifIntensities fp (some h) none = Res.abort) ∧
    (0 < h.ncycle * 4 * h.ncluster % 2 ^ 32 →
      ∃ block,
        readCifIntensities fp (some h) none =
          Res.ok (some { block := block, off := 0 },
                  { fp with fh := (fp.fh.drop
                      (h.datasize * (h.ncycle * 4 * h.ncluster % 2 ^ 32))) }) ∧
        block.length = h.ncycle * 4 * h.ncluster % 2 ^ 32 * h.datasize ∧
        (elems h.datasize block).length = h.ncycle * 4 * h.ncluster % 2 ^ 32) ∧
    (h.ncycle * 4 * h.ncluster < 2 ^ 32 →
      h.ncycle * 4 * h.ncluster % 2 ^ 32 = h.ncycle * 4 * h.ncluster) := by
  have hw2 : 1 = h.datasize ∨ 2 = h.datasize ∨ 4 = h.datasize := by omega
  refine ⟨?_, ?_, fun hlt => Nat.mod_eq_of_lt hlt⟩
  · intro h0
    simp only [readCifIntensities, wrap32_read, h0, readEncodedFloats]
    rw [if_neg (not_not.mpr hw2), if_pos (by omega)]
  · intro hpos
    simp only [readCifIntensities, wrap32_read]
    rw [readEncodedFloats_null fp hp _ _ hw hpos]
    have hl : (List.take (h.datasize * (h.ncycle * 4 * h.ncluster % 2 ^ 32)) fp.fh ++
        List.replicate (h.ncycle * 4 * h.ncluster % 2 ^ 32 * h.datasize -
          (List.take (h.datasize * (h.ncycle * 4 * h.ncluster % 2 ^ 32)) fp.fh).length) 0).length
        = h.ncycle * 4 * h.ncluster % 2 ^ 32 * h.datasize := by
      have : (List.take (h.datasize * (h.ncycle * 4 * h.ncluster % 2 ^ 32)) fp.fh).length
          ≤ h.ncycle * 4 * h.ncluster % 2 ^ 32 * h.datasize := by
        rw [List.length_take, Nat.mul_comm]; exact Nat.min_le_left _ _
      rw [List.length_append, List.length_replicate]
      omega
    refine ⟨_, rfl, hl, ?_⟩
    simp only [elems, List.length_map, List.length_range, hl]
    exact Nat.mul_div_cancel _ (by omega)

/-- An instance of C5: 70000 cycles do not fit a header, so take 3 cycles of
2 ^ 30 clusters, whose product 3 * 2 ^ 32 wraps to 0, and scenario A. -/
theorem C5_decoded_size_mod_2_32_witness :
    readCifIntensities { mode := XFILE_MODE.XFILE_RAW, fh := [1, 2, 3] }
        (some { version := 1, datasize := 2, firstcycle := 1, ncycle := 3,
                ncluster := 1073741824, intensity := none })
        none
      = Res.abort ∧
    ∃ block,
      readCifIntensities { mode := XFILE_MODE.XFILE_RAW, fh := [1, 2, 3] }
          (some { version := 1, datasize := 2, firstcycle := 1, ncycle := 2, ncluster := 3,
                  intensity := none })
          none
        = Res.ok (some { block := block, off := 0 },
                  { mode := XFILE_MODE.XFILE_RAW,
                    fh := [1, 2, 3].drop (2 * (2 * 4 * 3 % 2 ^ 32)) }) ∧
      block.length = 2 * 4 * 3 % 2 ^ 32 * 2 ∧
      (elems 2 block).length = 2 * 4 * 3 % 2 ^ 32 :=
  ⟨(C5_decoded_size_mod_2_32 { mode := XFILE_MODE.XFILE_RAW, fh := [1, 2, 3] } (by decide)
      { version := 1, datasize := 2, firstcycle := 1, ncycle := 3, ncluster := 1073741824,
        intensity := none } (by decide)).1 (by decide),
   (C5_decoded_size_mod_2_32 { mode := XFILE_MODE.XFILE_RAW, fh := [1, 2, 3] } (by decide)
      { version := 1, datasize := 2, firstcycle := 1, ncycle := 2, ncluster := 3,
        intensity := none } (by decide)).2.1 (by decide)⟩

/-- C6 (the defect): an aggregate that has a buffer of width 4 and a
consistent, non-empty file of width 4. The switch of cif_add_file has a case 3
where case 4 is meant, so the destination pointer stays NULL and the call
returns the aggregate unchanged: the file's elements are not placed. -/
theorem C6_width_4_not_placed (fs : List Char → Option (List Nat)) (junk : CifData)
    (name : List Char) (mode : XFILE_MODE) (fp : XFILE) (cif0 : CifData) (p : Ptr)
    (fc nc k : Nat) (body : List Nat)
    (hopen : xfopen fs name mode = Res.ok (some fp)) (hp : fp.plain)
    (hfc : fc < 65536) (hnc : nc < 65536) (hk : k < 2 ^ 32)
    (hs : fp.fh = wireHeader 1 4 fc nc k ++ body)
    (hbuf : cif0.intensity = some p)
    (hcv : cif0.version = 1) (hcw : cif0.datasize = 4) (hck : cif0.ncluster = k)
    (hpos : 0 < (nc * 4 * k) % 2 ^ 32) :
    cif_add_file fs junk (some name) mode (some cif0) = Res.ok (some cif0) :=
  cif_add_file_width4 fs junk name mode fp cif0 p fc nc k body hopen hp hfc hnc hk hs hbuf
    hcv hcw hck hpos

/-- The failing input of C6: an aggregate of one cycle and one cluster of width
4, still zero, and the file of cycle 1 with the elements 1, 2, 3, 4. The
aggregate comes back all zero. -/
theorem C6_width_4_not_placed_witness :
    cif_add_file (fun _ => some (wireHeader 1 4 1 1 1 ++ storeElems 4 [1, 2, 3, 4])) new_cif
        (some ['s', '.', 'c', 'i', 'f']) XFILE_MODE.XFILE_RAW
        (some { version := 1, datasize := 4, firstcycle := 1, ncycle := 1, ncluster := 1,
                intensity := some { block := List.replicate 16 0, off := 0 } })
      = Res.ok (some { version := 1, datasize := 4, firstcycle := 1, ncycle := 1, ncluster := 1,
                       intensity := some { block := List.replicate 16 0, off := 0 } }) :=
  C6_width_4_not_placed (fun _ => some (wireHeader 1 4 1 1 1 ++ storeElems 4 [1, 2, 3, 4]))
    new_cif ['s', '.', 'c', 'i', 'f'] XFILE_MODE.XFILE_RAW
    { mode := XFILE_MODE.XFILE_RAW, fh := wireHeader 1 4 1 1 1 ++ storeElems 4 [1, 2, 3, 4] }
    { version := 1, datasize := 4, firstcycle := 1, ncycle := 1, ncluster := 1,
      intensity := some { block := List.replicate 16 0, off := 0 } }
    { block := List.replicate 16 0, off := 0 } 1 1 1 (storeElems 4 [1, 2, 3, 4])
    rfl (by decide) (by decide) (by decide) (by decide) rfl rfl rfl rfl rfl (by decide)

/-- C7 as stated fails. With no cluster the single file of one cycle stops at
the assertion nfloat > 0. With width 4 (the aggregate's datasize set to 4) the
file is accepted and its elements 1, 2, 3, 4 are not placed: the buffer comes
back zero. With width 1 and the aggregate as new_cif makes it (datasize 2) the
file is refused. -/
theorem C7_composition_fails :
    cif_add_files (fun _ => some (wireHeader 1 2 1 1 0)) new_cif XFILE_MODE.XFILE_RAW
        [['a']] (some { new_cif with ncycle := 1 })
      = Res.abort ∧
    cif_add_files (fun _ => some (wireHeader 1 4 1 1 1 ++ storeElems 4 [1, 2, 3, 4])) new_cif
        XFILE_MODE.XFILE_RAW [['a']] (some { new_cif with ncycle := 1, datasize := 4 })
      = Res.ok (some { version := 1, datasize := 4, firstcycle := 1, ncycle := 1, ncluster := 1,
                       intensity := some { block := List.replicate 16 0, off := 0 } }) ∧
    storeElems 4 [1, 2, 3, 4] ≠ List.replicate 16 0 ∧
    cif_add_files (fun _ => some (wireHeader 1 1 1 1 1 ++ storeElems 1 [1, 2, 3, 4])) new_cif
        XFILE_MODE.XFILE_RAW [['a']] (some { new_cif with ncycle := 1 })
      = Res.ok none := by
  decide

/-- C7 (amended): aggregation composition. For N cycles (1 to 65535), a
positive clusterCount K with N * 4 * K below 2 ^ 32, sample width w in 1, 2 and
every full buffer of N cycles: starting from new_cif with cycleCount set to N
and sampleWidth set to w, adding with cif_add_file the N single-cycle files
with firstCycle 1 to N, each carrying the corresponding one-cycle slice of the
full buffer, returns an aggregate of version 1, firstCycle 1, cycleCount N,
clusterCount K, width w whose buffer is identical to the full buffer. -/
theorem C7_composition (fs : List Char → Option (List Nat)) (junk : CifData)
    (mode : XFILE_MODE) (name : Nat → List Char) (n k w : Nat) (full : List Nat)
    (hw : w = 1 ∨ w = 2) (hn : 1 ≤ n) (hn16 : n < 65536) (hk : 0 < k)
    (hlt : n * 4 * k < 2 ^ 32)
    (hfull : full.length = n * 4 * k * w)
    (hfiles : ∀ i, i < n → xfopen fs (name i) mode =
      Res.ok (some { mode := XFILE_MODE.XFILE_RAW,
                     fh := wireHeader 1 w (i + 1) 1 k ++
                       (full.drop (i * (4 * k * w))).take (4 * k * w) })) :
    cif_add_files fs junk mode ((List.range n).map name)
        (some { new_cif with ncycle := n, datasize := w })
      = Res.ok (some { version := 1, datasize := w, firstcycle := 1, ncycle := n, ncluster := k,
                       intensity := some { block := full, off := 0 } }) := by
  obtain ⟨m, rfl⟩ : ∃ m, n = m + 1 := ⟨n - 1, by omega⟩
  have hk32 : k < 2 ^ 32 := by nlinarith
  have e0 : ({ new_cif with ncycle := m + 1, datasize := w } : CifData) =
      { version := 1, datasize := w, firstcycle := 1, ncycle := m + 1, ncluster := 0,
        intensity := none } := rfl
  have hsz : ((m + 1) * 4 * k) % 2 ^ 32 * w = (m + 1 - 0) * (4 * k * w) := by
    rw [Nat.mod_eq_of_lt hlt, Nat.sub_zero]; ring
  have hfirst : cif_add_file fs junk (some (name 0)) mode
      (some { version := 1, datasize := w, firstcycle := 1, ncycle := m + 1, ncluster := 0,
              intensity := none })
      = cif_add_file fs junk (some (name 0)) mode (some (aggState (m + 1) k w full 0)) := by
    rw [cif_add_file_first fs junk (name 0) mode _ _ w 1 1 k
      ((full.drop (0 * (4 * k * w))).take (4 * k * w))
      (hfiles 0 (by omega)) (Or.inr rfl) (by omega) (by omega) (by omega) hk32 rfl rfl]
    simp only [aggState, Nat.zero_mul, List.take_zero, List.nil_append, hsz]
  have hfin : aggState (m + 1) k w full (m + 1) =
      { version := 1, datasize := w, firstcycle := 1, ncycle := m + 1, ncluster := k,
        intensity := some { block := full, off := 0 } } := by
    have : full.length ≤ (m + 1) * (4 * k * w) := by rw [hfull]; apply Nat.le_of_eq; ring
    simp [aggState, List.take_of_length_le this]
  rw [e0, List.range_eq_range', List.range'_succ]
  simp only [List.map_cons, cif_add_files]
  rw [hfirst, cif_add_file_aggState fs junk mode name (m + 1) k w full hw hn16 hk hlt hfull
    hfiles 0 (by omega)]
  simp only [Res.bind_ok]
  rw [← hfin]
  exact cif_add_files_aggState fs junk mode name (m + 1) k w full hw hn16 hk hlt hfull hfiles
    m 1 (by omega)

/-- Scenario B of the specification as an instance of C7: two single-cycle
files of three clusters of width 1 with the values 1 to 12 and 13 to 24. -/
theorem C7_composition_witness :
    cif_add_files scenarioB_fs new_cif XFILE_MODE.XFILE_RAW
        ((List.range 2).map scenarioB_name) (some { new_cif with ncycle := 2, datasize := 1 })
      = Res.ok (some { version := 1, datasize := 1, firstcycle := 1, ncycle := 2, ncluster := 3,
                       intensity := some { block := scenarioB_full, off := 0 } }) :=
  C7_composition scenarioB_fs new_cif XFILE_MODE.XFILE_RAW scenarioB_name 2 3 1 scenarioB_full
    (by decide) (by decide) (by decide) (by decide) (by decide) (by decide) (by decide)

/-- C8 as stated fails: the first file has width 1 and the aggregate is the one
new_cif makes (datasize 2) with its cycleCount set to 1. The aggregate does not
take the width of the file: the file is refused and NULL returned. -/
theorem C8_width_not_adopted :
    cif_add_file (fun _ => some (wireHeader 1 1 1 1 1 ++ [1, 2, 3, 4])) new_cif
        (some ['C', '1']) XFILE_MODE.XFILE_RAW (some { new_cif with ncycle := 1 })
      = Res.ok none := by
  decide

/-- C8 (amended): the first file. When cif_add_file processes a file with a
valid header into an aggregate that has no buffer yet, the aggregate's
clusterCount becomes that of the file and a zero-initialised buffer of
cycleCount * 4 * clusterCount (modulo 2 ^ 32) elements of the aggregate's width
is created, after which the call proceeds as for an aggregate that has this
buffer. The aggregate's version and width are not taken from the file: if they
differ from the file's, the call returns NULL. If they agree, the width is 1 or
2 and the complete file fits, the result is the zero buffer with the file's
bytes at the destination. -/
theorem C8_first_file (fs : List Char → Option (List Nat)) (junk : CifData)
    (name : List Char) (mode : XFILE_MODE) (fp : XFILE) (cif0 : CifData)
    (w fc nc k : Nat) (data rest : List Nat)
    (hopen : xfopen fs name mode = Res.ok (some fp)) (hp : fp.plain)
    (hw : w = 1 ∨ w = 2 ∨ w = 4) (hfc : fc < 65536) (hnc : nc < 65536) (hk : k < 2 ^ 32)
    (hs : fp.fh = wireHeader 1 w fc nc k ++ (data ++ rest))
    (hbuf : cif0.intensity = none) :
    cif_add_file fs junk (some name) mode (some cif0) =
      cif_add_file fs junk (some name) mode
        (some { cif0 with
                  ncluster := k,
                  intensity := some
                    { block := List.replicate
                        ((cif0.ncycle * 4 * k) % 2 ^ 32 * cif0.datasize) 0,
                      off := 0 } }) ∧
    (cif0.version ≠ 1 ∨ cif0.datasize ≠ w →
      cif_add_file fs junk (some name) mode (some cif0) = Res.ok none) ∧
    (cif0.version = 1 → cif0.datasize = w → w = 1 ∨ w = 2 → 1 ≤ fc →
      0 < nc * 4 * k → cif0.ncycle * 4 * k < 2 ^ 32 →
      (fc - 1) * k * 4 + nc * 4 * k ≤ cif0.ncycle * 4 * k →
      data.length = w * (nc * 4 * k) →
      cif_add_file fs junk (some name) mode (some cif0) =
        Res.ok (some { cif0 with
          ncluster := k,
          intensity := some
            { block := List.replicate (w * ((fc - 1) * k * 4)) 0 ++ data ++
                List.replicate
                  (cif0.ncycle * 4 * k * w - (w * ((fc - 1) * k * 4) + data.length)) 0,
              off := 0 } })) := by
  have hfirst := cif_add_file_first fs junk name mode fp cif0 w fc nc k (data ++ rest) hopen hp
    hw hfc hnc hk hs hbuf
  refine ⟨hfirst, ?_, ?_⟩
  · intro hne
    rw [hfirst]
    exact cif_add_file_inconsistent fs junk name mode fp _ _ w fc nc k (data ++ rest) hopen hp
      hw hfc hnc hk hs rfl (by rcases hne with h | h; exact Or.inl h; exact Or.inr (Or.inl h))
  · intro hcv hcw hw12 h1 hpos hlt hfit hd
    rw [hfirst]
    have hnlt : nc * 4 * k < 2 ^ 32 := by omega
    have holt : (fc - 1) * k * 4 < 2 ^ 32 := by omega
    have hwle : w * ((fc - 1) * k * 4) + data.length ≤ cif0.ncycle * 4 * k * w := by
      rw [hd, ← Nat.mul_add, Nat.mul_comm]
      exact Nat.mul_le_mul_right _ hfit
    rw [cif_add_file_place fs junk name mode fp
      { cif0 with
          ncluster := k,
          intensity := some
            { block := List.replicate ((cif0.ncycle * 4 * k) % 2 ^ 32 * cif0.datasize) 0,
              off := 0 } }
      { block := List.replicate ((cif0.ncycle * 4 * k) % 2 ^ 32 * cif0.datasize) 0, off := 0 }
      w fc nc k data rest hopen hp hw12 h1 hfc
      hnc hk hs rfl hcv hcw rfl hpos hnlt holt hd
      (by simp only [List.length_replicate, Nat.mod_eq_of_lt hlt, hcw]; omega)]
    simp only [Nat.zero_add, Nat.mod_eq_of_lt hlt, hcw, List.take_replicate,
      List.drop_replicate]
    rw [Nat.min_eq_left (by omega)]

/-- An instance of C8: the second file of scenario B as the first file added
to an aggregate of two cycles and width 1. -/
theorem C8_first_file_witness :
    cif_add_file scenarioB_fs new_cif (some ['C', '2']) XFILE_MODE.XFILE_RAW
        (some { version := 1, datasize := 1, firstcycle := 1, ncycle := 2, ncluster := 0,
                intensity := none })
      = Res.ok (some { version := 1, datasize := 1, firstcycle := 1, ncycle := 2, ncluster := 3,
                       intensity := some
                         { block := [0, 0, 0, 0, 0, 0, 0, 0, 0, 0, 0, 0,
                                     13, 14, 15, 16, 17, 18, 19, 20, 21, 22, 23, 24],
                           off := 0 } }) :=
  (C8_first_file scenarioB_fs new_cif ['C', '2'] XFILE_MODE.XFILE_RAW
    { mode := XFILE_MODE.XFILE_RAW,
      fh := wireHeader 1 1 2 1 3 ++
        ([13, 14, 15, 16, 17, 18, 19, 20, 21, 22, 23, 24] ++ []) }
    { version := 1, datasize := 1, firstcycle := 1, ncycle := 2, ncluster := 0,
      intensity := none }
    1 2 1 3 [13, 14, 15, 16, 17, 18, 19, 20, 21, 22, 23, 24] []
    (by decide) (by decide) (by decide) (by decide) (by decide) (by decide) rfl rfl).2.2
    rfl rfl (by decide) (by decide) (by decide) (by decide) (by decide) (by decide)

/-- C9: aggregation consistency. For an aggregate that has a buffer and a file
with a complete header: if the file's version, sampleWidth or clusterCount
differs from the aggregate's, cif_add_file returns no aggregate: it returns
NULL when the file's header is valid, and stops at an assertion of
readCifHeader when the file's version is not 1 or its width not 1, 2 or 4.
consistent_cif_headers accepts exactly when all three fields match, and then
cif_add_file does not return NULL. -/
theorem C9_consistency (fs : List Char → Option (List Nat)) (junk : CifData)
    (name : List Char) (mode : XFILE_MODE) (fp : XFILE) (cif0 : CifData) (p : Ptr)
    (v w fc nc k : Nat) (body : List Nat)
    (hopen : xfopen fs name mode = Res.ok (some fp)) (hp : fp.plain)
    (hv : v < 256) (hw : w < 256) (hfc : fc < 65536) (hnc : nc < 65536) (hk : k < 2 ^ 32)
    (hs : fp.fh = wireHeader v w fc nc k ++ body)
    (hbuf : cif0.intensity = some p) :
    (v ≠ cif0.version ∨ w ≠ cif0.datasize ∨ k ≠ cif0.ncluster →
      cif_add_file fs junk (some name) mode (some cif0) =
        if v = 1 ∧ (w = 1 ∨ w = 2 ∨ w = 4) then Res.ok none else Res.abort) ∧
    (consistent_cif_headers cif0
        { version := v, datasize := w, firstcycle := fc, ncycle := nc, ncluster := k,
          intensity := none } = true ↔
      (v = cif0.version ∧ w = cif0.datasize ∧ k = cif0.ncluster)) ∧
    (v = cif0.version ∧ w = cif0.datasize ∧ k = cif0.ncluster →
      cif_add_file fs junk (some name) mode (some cif0) ≠ Res.ok none) := by
  refine ⟨?_, ?_, ?_⟩
  · intro hne
    by_cases hgood : v = 1 ∧ (w = 1 ∨ w = 2 ∨ w = 4)
    · rw [if_pos hgood]
      obtain ⟨rfl, hw3⟩ := hgood
      exact cif_add_file_inconsistent fs junk name mode fp cif0 p w fc nc k body hopen hp hw3
        hfc hnc hk hs hbuf (by omega)
    · rw [if_neg hgood]
      exact cif_add_file_bad_header fs junk name mode fp _ v w fc nc k body hopen hp hv hw hfc
        hnc hk hs hgood
  · simp only [consistent_cif_headers]
    constructor
    · intro h
      split_ifs at h with h1 h2 h3
      exact ⟨(not_not.mp h1).symm, (not_not.mp h2).symm, (not_not.mp h3).symm⟩
    · rintro ⟨rfl, rfl, rfl⟩
      simp
  · rintro ⟨hcv, hcw, hck⟩
    by_cases hgood : v = 1 ∧ (w = 1 ∨ w = 2 ∨ w = 4)
    · obtain ⟨rfl, hw3⟩ := hgood
      rcases Nat.eq_zero_or_pos ((nc * 4 * k) % 2 ^ 32) with hz | hpos
      · rw [cif_add_file_empty fs junk name mode fp cif0 p w fc nc k body hopen hp hw3 hfc hnc
          hk hs hbuf hcv.symm hcw.symm hck.symm hz]
        simp
      · rcases hw3 with h1 | h2 | h4
        · rw [cif_add_file_existing fs junk name mode fp cif0 p w fc nc k body hopen hp
            (Or.inl h1) hfc hnc hk hs hbuf hcv.symm hcw.symm hck.symm hpos]
          cases fread p.block _ w _ body <;> simp
        · rw [cif_add_file_existing fs junk name mode fp cif0 p w fc nc k body hopen hp
            (Or.inr h2) hfc hnc hk hs hbuf hcv.symm hcw.symm hck.symm hpos]
          cases fread p.block _ w _ body <;> simp
        · subst h4
          rw [cif_add_file_width4 fs junk name mode fp cif0 p fc nc k body hopen hp hfc hnc hk
            hs hbuf hcv.symm hcw.symm hck.symm hpos]
          simp
    · rw [cif_add_file_bad_header fs junk name mode fp _ v w fc nc k body hopen hp hv hw hfc
        hnc hk hs hgood]
      simp

/-- An instance of C9: the first file of scenario B (three clusters) offered
to an aggregate of four clusters is refused. -/
theorem C9_consistency_witness :
    cif_add_file scenarioB_fs new_cif (some ['C', '1']) XFILE_MODE.XFILE_RAW
        (some { version := 1, datasize := 1, firstcycle := 1, ncycle := 2, ncluster := 4,
                intensity := some { block := List.replicate 32 0, off := 0 } })
      = Res.ok none :=
  (C9_consistency scenarioB_fs new_cif ['C', '1'] XFILE_MODE.XFILE_RAW
    { mode := XFILE_MODE.XFILE_RAW,
      fh := wireHeader 1 1 1 1 3 ++ [1, 2, 3, 4, 5, 6, 7, 8, 9, 10, 11, 12] }
    { version := 1, datasize := 1, firstcycle := 1, ncycle := 2, ncluster := 4,
      intensity := some { block := List.replicate 32 0, off := 0 } }
    { block := List.replicate 32 0, off := 0 }
    1 1 1 1 3 [1, 2, 3, 4, 5, 6, 7, 8, 9, 10, 11, 12]
    (by decide) (by decide) (by decide) (by decide) (by decide) (by decide) (by decide)
    rfl rfl).1 (by decide)

/-- C10 as stated fails. The file of cycle 2 added to an aggregate of one cycle
is not refused with an error: its four bytes are written past the end of the
four-byte buffer. A file that announces two cycles from cycle 2 on but holds
one, added to an aggregate of two cycles, is accepted and its bytes are written
into the buffer. A file with firstCycle 0 is not refused either: its offset
wraps to 2 ^ 32 - 4 elements and the write is far outside the buffer. -/
theorem C10_no_bounds_error :
    cif_add_file (fun _ => some (wireHeader 1 1 2 1 1 ++ [1, 2, 3, 4])) new_cif
        (some ['C', '2']) XFILE_MODE.XFILE_RAW
        (some { version := 1, datasize := 1, firstcycle := 1, ncycle := 1, ncluster := 1,
                intensity := some { block := [0, 0, 0, 0], off := 0 } })
      = Res.fault ∧
    cif_add_file (fun _ => some (wireHeader 1 1 2 2 1 ++ [1, 2, 3, 4])) new_cif
        (some ['C', '2']) XFILE_MODE.XFILE_RAW
        (some { version := 1, datasize := 1, firstcycle := 1, ncycle := 2, ncluster := 1,
                intensity := some { block := [0, 0, 0, 0, 0, 0, 0, 0], off := 0 } })
      = Res.ok (some { version := 1, datasize := 1, firstcycle := 1, ncycle := 2, ncluster := 1,
                       intensity := some { block := [0, 0, 0, 0, 1, 2, 3, 4], off := 0 } }) ∧
    cif_add_file (fun _ => some (wireHeader 1 1 0 1 1 ++ [1, 2, 3, 4])) new_cif
        (some ['C', '0']) XFILE_MODE.XFILE_RAW
        (some { version := 1, datasize := 1, firstcycle := 1, ncycle := 2, ncluster := 1,
                intensity := some { block := [0, 0, 0, 0, 0, 0, 0, 0], off := 0 } })
      = Res.fault := by
  decide

/-- C10 (amended): cif_add_file has no bounds check. For an aggregate that has
a buffer of width 1 or 2 and a consistent file with a non-zero element count,
whatever the relation of the destination range to the allocated length: the
call never returns NULL; the bytes the file supplies, at most the announced
count, are copied to the destination offset (computed modulo 2 ^ 32, so a
firstCycle of 0 wraps); if they end inside the buffer the aggregate is returned
with them in place, and otherwise the copy runs past the end of the buffer. -/
theorem C10_no_bounds_check (fs : List Char → Option (List Nat)) (junk : CifData)
    (name : List Char) (mode : XFILE_MODE) (fp : XFILE) (cif0 : CifData) (p : Ptr)
    (w fc nc k : Nat) (body : List Nat)
    (hopen : xfopen fs name mode = Res.ok (some fp)) (hp : fp.plain)
    (hw : w = 1 ∨ w = 2) (hfc : fc < 65536) (hnc : nc < 65536) (hk : k < 2 ^ 32)
    (hs : fp.fh = wireHeader 1 w fc nc k ++ body)
    (hbuf : cif0.intensity = some p)
    (hcv : cif0.version = 1) (hcw : cif0.datasize = w) (hck : cif0.ncluster = k)
    (hpos : 0 < (nc * 4 * k) % 2 ^ 32) :
    cif_add_file fs junk (some name) mode (some cif0) ≠ Res.ok none ∧
    cif_add_file fs junk (some name) mode (some cif0) =
      if (body.take (w * ((nc * 4 * k) % 2 ^ 32))).length ≠ 0 ∧
          p.block.length <
            p.off + w * ((((fc + 2 ^ 32 - 1) % 2 ^ 32 * k) % 2 ^ 32) * 4 % 2 ^ 32) +
              (body.take (w * ((nc * 4 * k) % 2 ^ 32))).length
      then Res.fault
      else Res.ok (some { cif0 with intensity := (some
        { block :=
            p.block.take
                (p.off + w * ((((fc + 2 ^ 32 - 1) % 2 ^ 32 * k) % 2 ^ 32) * 4 % 2 ^ 32)) ++
              body.take (w * ((nc * 4 * k) % 2 ^ 32)) ++
              p.block.drop
                (p.off + w * ((((fc + 2 ^ 32 - 1) % 2 ^ 32 * k) % 2 ^ 32) * 4 % 2 ^ 32) +
                  (body.take (w * ((nc * 4 * k) % 2 ^ 32))).length),
          off := p.off }) }) := by
  have key := cif_add_file_existing fs junk name mode fp cif0 p w fc nc k body hopen hp hw hfc
    hnc hk hs hbuf hcv hcw hck hpos
  simp only [fread, NCHANNEL] at key
  rw [key]
  constructor
  · split <;> simp
  · split <;> rfl

/-- An instance of C10: the second file of scenario B added to an aggregate of
one cycle. No error is returned; the twelve bytes are copied past the end of
the twelve-byte buffer. -/
theorem C10_no_bounds_check_witness :
    cif_add_file scenarioB_fs new_cif (some ['C', '2']) XFILE_MODE.XFILE_RAW
        (some { version := 1, datasize := 1, firstcycle := 1, ncycle := 1, ncluster := 3,
                intensity := some { block := List.replicate 12 0, off := 0 } })
      ≠ Res.ok none ∧
    cif_add_file scenarioB_fs new_cif (some ['C', '2']) XFILE_MODE.XFILE_RAW
        (some { version := 1, datasize := 1, firstcycle := 1, ncycle := 1, ncluster := 3,
                intensity := some { block := List.replicate 12 0, off := 0 } })
      = Res.fault :=
  C10_no_bounds_check scenarioB_fs new_cif ['C', '2'] XFILE_MODE.XFILE_RAW
    { mode := XFILE_MODE.XFILE_RAW,
      fh := wireHeader 1 1 2 1 3 ++ [13, 14, 15, 16, 17, 18, 19, 20, 21, 22, 23, 24] }
    { version := 1, datasize := 1, firstcycle := 1, ncycle := 1, ncluster := 3,
      intensity := some { block := List.replicate 12 0, off := 0 } }
    { block := List.replicate 12 0, off := 0 }
    1 2 1 3 [13, 14, 15, 16, 17, 18, 19, 20, 21, 22, 23, 24]
    (by decide) (by decide) (by decide) (by decide) (by decide) (by decide) rfl rfl rfl rfl rfl
    (by decide)

/-! ## Facts for the properties C11 to C20 -/

/-- A call of cif_add_file that returns an aggregate leaves its version,
firstcycle and ncycle as they were. -/
theorem cif_add_file_keeps_header (fs : List Char → Option (List Nat)) (junk : CifData)
    (fn : Option (List Char)) (mode : XFILE_MODE) (cif0 agg : CifData)
    (h : cif_add_file fs junk fn mode (some cif0) = Res.ok (some agg)) :
    agg.version = cif0.version ∧ agg.firstcycle = cif0.firstcycle ∧
      agg.ncycle = cif0.ncycle := by
  cases fn with
  | none => simp [cif_add_file] at h
  | some name =>
    obtain ⟨v0, w0, fc0, nc0, k0, i0⟩ := cif0
    simp only [cif_add_file] at h
    cases hx : xfopen fs name mode with
    | abort => rw [hx] at h; simp at h
    | fault => rw [hx] at h; simp at h
    | ok opened =>
      rw [hx] at h
      simp only [Res.bind_ok] at h
      cases opened with
      | none => simp at h
      | some fp =>
        simp only at h
        cases hr : readCifHeader junk fp with
        | abort => rw [hr] at h; simp at h
        | fault => rw [hr] at h; simp at h
        | ok rh =>
          rw [hr] at h
          simp only [Res.bind_ok] at h
          obtain ⟨oh, fp2⟩ := rh
          cases oh with
          | none => simp at h
          | some nh =>
            simp only at h
            split at h
            · simp at h
            · cases hq : readCifIntensities fp2 (some nh) _ with
              | abort => rw [hq] at h; simp at h
              | fault => rw [hq] at h; simp at h
              | ok q =>
                rw [hq] at h
                simp only [Res.bind_ok] at h
                cases i0 <;> simp only at h <;> split at h <;>
                  simp only [Res.ok.injEq, Option.some.injEq] at h <;> subst h <;> simp

theorem cif_add_files_null (fs : List Char → Option (List Nat)) (junk : CifData)
    (mode : XFILE_MODE) (names : List (List Char)) :
    cif_add_files fs junk mode names none = Res.ok none := by
  cases names <;> rfl

/-- A run of the loop that returns an aggregate leaves its version, firstcycle
and ncycle as they were. -/
theorem cif_add_files_keeps_header (fs : List Char → Option (List Nat)) (junk : CifData)
    (mode : XFILE_MODE) (names : List (List Char)) (cif0 agg : CifData)
    (h : cif_add_files fs junk mode names (some cif0) = Res.ok (some agg)) :
    agg.version = cif0.version ∧ agg.firstcycle = cif0.firstcycle ∧
      agg.ncycle = cif0.ncycle := by
  induction names generalizing cif0 with
  | nil =>
    simp only [cif_add_files, Res.ok.injEq, Option.some.injEq] at h
    subst h
    exact ⟨rfl, rfl, rfl⟩
  | cons fn fns ih =>
    simp only [cif_add_files] at h
    cases hc : cif_add_file fs junk (some fn) mode (some cif0) with
    | abort => rw [hc] at h; simp at h
    | fault => rw [hc] at h; simp at h
    | ok r =>
      rw [hc] at h
      simp only [Res.bind_ok] at h
      cases r with
      | none => rw [cif_add_files_null] at h; simp at h
      | some c1 =>
        have h1 := cif_add_file_keeps_header fs junk (some fn) mode cif0 c1 hc
        have h2 := ih c1 h
        exact ⟨h2.1.trans h1.1, h2.2.1.trans h1.2.1, h2.2.2.trans h1.2.2⟩

theorem length_placeAt (blk : List Nat) (o : Nat) (d : List Nat)
    (h : o + d.length ≤ blk.length) : (placeAt blk o d).length = blk.length := by
  simp only [placeAt, List.length_append, List.length_take, List.length_drop]
  omega

theorem getElem?_placeAt (blk : List Nat) (o : Nat) (d : List Nat)
    (h : o + d.length ≤ blk.length) (i : Nat) :
    (placeAt blk o d)[i]? =
      if i < o then blk[i]? else if i < o + d.length then d[i - o]? else blk[i]? := by
  have hl : (blk.take o).length = o := by rw [List.length_take]; omega
  unfold placeAt
  by_cases h1 : i < o
  · rw [if_pos h1, List.append_assoc, List.getElem?_append_left (by omega),
      List.getElem?_take_of_lt h1]
  · rw [if_neg h1, List.append_assoc, List.getElem?_append_right (by omega), hl]
    by_cases h2 : i < o + d.length
    · rw [if_pos h2, List.getElem?_append_left (by omega)]
    · rw [if_neg h2, List.getElem?_append_right (by omega), List.getElem?_drop]
      congr 1
      omega

/-- Writes to disjoint ranges commute. -/
theorem placeAt_comm (blk : List Nat) (o1 o2 : Nat) (d1 d2 : List Nat)
    (h1 : o1 + d1.length ≤ blk.length) (h2 : o2 + d2.length ≤ blk.length)
    (hd : o1 + d1.length ≤ o2 ∨ o2 + d2.length ≤ o1) :
    placeAt (placeAt blk o1 d1) o2 d2 = placeAt (placeAt blk o2 d2) o1 d1 := by
  apply List.ext_getElem?
  intro i
  have e1 := getElem?_placeAt (placeAt blk o1 d1) o2 d2
    (by rw [length_placeAt _ _ _ h1]; exact h2) i
  have e2 := getElem?_placeAt (placeAt blk o2 d2) o1 d1
    (by rw [length_placeAt _ _ _ h2]; exact h1) i
  rw [e1, e2, getElem?_placeAt _ _ _ h1, getElem?_placeAt _ _ _ h2]
  rcases hd with hd | hd <;> split_ifs <;> first | rfl | omega

/-- Two blocks that agree on the w bytes of an element hold the same element. -/
theorem elemAt_congr (w : Nat) (b1 b2 : List Nat) (e1 e2 : Nat)
    (h : ∀ j, j < w → b1[w * e1 + j]? = b2[w * e2 + j]?) :
    elemAt w b1 e1 = elemAt w b2 e2 := by
  unfold elemAt
  congr 1
  apply List.ext_getElem?
  intro j
  simp only [List.getElem?_take, List.getElem?_drop]
  split
  · exact h j (by assumption)
  · rfl

/-- One call of cif_add_file on an aggregate that has its buffer, for a
complete consistent file whose destination lies inside the buffer. -/
theorem cif_add_file_step (fs : List Char → Option (List Nat)) (junk : CifData)
    (name : List Char) (mode : XFILE_MODE) (fp : XFILE) (c : CifData) (p : Ptr)
    (w fc nc k : Nat) (data rest : List Nat)
    (hopen : xfopen fs name mode = Res.ok (some fp)) (hp : fp.plain)
    (hw : w = 1 ∨ w = 2 ∨ w = 4) (h1 : 1 ≤ fc) (hfc : fc < 65536) (hnc : nc < 65536)
    (hk : k < 2 ^ 32)
    (hs : fp.fh = wireHeader 1 w fc nc k ++ (data ++ rest))
    (hbuf : c.intensity = some p)
    (hcv : c.version = 1) (hcw : c.datasize = w) (hck : c.ncluster = k)
    (hlt : nc * 4 * k < 2 ^ 32) (holt : (fc - 1) * k * 4 < 2 ^ 32)
    (hd : data.length = w * (nc * 4 * k))
    (hfit : p.off + w * ((fc - 1) * k * 4) + data.length ≤ p.block.length) :
    cif_add_file fs junk (some name) mode (some c) =
      if nc * 4 * k = 0 then Res.abort
      else if w = 4 then Res.ok (some c)
      else Res.ok (some { c with intensity := (some
        { block := placeAt p.block (p.off + w * ((fc - 1) * k * 4)) data, off := p.off }) }) := by
  by_cases h0 : nc * 4 * k = 0
  · rw [if_pos h0]
    exact cif_add_file_empty fs junk name mode fp c p w fc nc k (data ++ rest) hopen hp hw hfc
      hnc hk hs hbuf hcv hcw hck (by rw [h0]; rfl)
  · rw [if_neg h0]
    by_cases h4 : w = 4
    · rw [if_pos h4]
      subst h4
      exact cif_add_file_width4 fs junk name mode fp c p fc nc k (data ++ rest) hopen hp hfc hnc
        hk hs hbuf hcv hcw hck (by rw [Nat.mod_eq_of_lt hlt]; omega)
    · rw [if_neg h4]
      exact cif_add_file_place fs junk name mode fp c p w fc nc k data rest hopen hp (by omega)
        h1 hfc hnc hk hs hbuf hcv hcw hck (by omega) hlt holt hd hfit

/-- Two calls of cif_add_file in a row on an aggregate that has its buffer,
for two complete consistent files whose destinations lie inside the buffer:
the second file is written over what the first has left. -/
theorem cif_add_files_two (fs : List Char → Option (List Nat)) (junk : CifData)
    (mode : XFILE_MODE) (nameA nameB : List Char) (c : CifData) (p : Ptr)
    (w k fcA ncA fcB ncB : Nat) (dataA dataB : List Nat)
    (hA : holdsRecord fs mode nameA w fcA ncA k dataA)
    (hB : holdsRecord fs mode nameB w fcB ncB k dataB)
    (hbuf : c.intensity = some p)
    (hcv : c.version = 1) (hcw : c.datasize = w) (hck : c.ncluster = k)
    (h1A : 1 ≤ fcA) (h1B : 1 ≤ fcB)
    (hltA : ncA * 4 * k < 2 ^ 32) (holtA : (fcA - 1) * k * 4 < 2 ^ 32)
    (hltB : ncB * 4 * k < 2 ^ 32) (holtB : (fcB - 1) * k * 4 < 2 ^ 32)
    (hfitA : p.off + w * ((fcA - 1) * k * 4) + dataA.length ≤ p.block.length)
    (hfitB : p.off + w * ((fcB - 1) * k * 4) + dataB.length ≤ p.block.length) :
    cif_add_files fs junk mode [nameA, nameB] (some c) =
      if ncA * 4 * k = 0 ∨ ncB * 4 * k = 0 then Res.abort
      else if w = 4 then Res.ok (some c)
      else Res.ok (some { c with intensity := (some
        { block := placeAt (placeAt p.block (p.off + w * ((fcA - 1) * k * 4)) dataA)
            (p.off + w * ((fcB - 1) * k * 4)) dataB,
          off := p.off }) }) := by
  obtain ⟨fpA, restA, hoA, hpA, hw, hfcA, hncA, hk, hsA, hdA⟩ := hA
  obtain ⟨fpB, restB, hoB, hpB, -, hfcB, hncB, -, hsB, hdB⟩ := hB
  have sA := cif_add_file_step fs junk nameA mode fpA c p w fcA ncA k dataA restA hoA hpA hw h1A
    hfcA hncA hk hsA hbuf hcv hcw hck hltA holtA hdA hfitA
  simp only [cif_add_files]
  rw [sA]
  by_cases hA0 : ncA * 4 * k = 0
  · rw [if_pos hA0, if_pos (Or.inl hA0)]
    rfl
  · rw [if_neg hA0]
    by_cases h4 : w = 4
    · rw [if_pos h4]
      simp only [Res.bind_ok, cif_add_files]
      rw [cif_add_file_step fs junk nameB mode fpB c p w fcB ncB k dataB restB hoB hpB hw h1B
        hfcB hncB hk hsB hbuf hcv hcw hck hltB holtB hdB hfitB]
      by_cases hB0 : ncB * 4 * k = 0
      · rw [if_pos hB0, if_pos (Or.inr hB0)]
        rfl
      · rw [if_neg hB0, if_pos h4, if_neg (by tauto), if_pos h4]
        rfl
    · rw [if_neg h4]
      simp only [Res.bind_ok, cif_add_files]
      rw [cif_add_file_step fs junk nameB mode fpB
        { c with intensity := (some
            { block := placeAt p.block (p.off + w * ((fcA - 1) * k * 4)) dataA, off := p.off }) }
        { block := placeAt p.block (p.off + w * ((fcA - 1) * k * 4)) dataA, off := p.off }
        w fcB ncB k dataB restB hoB hpB hw h1B
        hfcB hncB hk hsB rfl hcv hcw hck hltB holtB hdB
        (by simp only; rw [length_placeAt _ _ _ (by omega)]; exact hfitB)]
      by_cases hB0 : ncB * 4 * k = 0
      · rw [if_pos hB0, if_pos (Or.inr hB0)]
        rfl
      · rw [if_neg hB0, if_neg h4, if_neg (by tauto), if_neg h4]
        rfl

/-- The loop on a fresh aggregate starts as the loop on the aggregate with the
number of clusters of the first file and a zeroed buffer. -/
theorem cif_add_files_first (fs : List Char → Option (List Nat)) (junk : CifData)
    (mode : XFILE_MODE) (name : List Char) (names : List (List Char)) (cif0 : CifData)
    (w fc nc k : Nat) (data : List Nat)
    (hA : holdsRecord fs mode name w fc nc k data)
    (hbuf : cif0.intensity = none) :
    cif_add_files fs junk mode (name :: names) (some cif0) =
      cif_add_files fs junk mode (name :: names)
        (some { cif0 with
                  ncluster := k,
                  intensity := some
                    { block := List.replicate
                        ((cif0.ncycle * 4 * k) % 2 ^ 32 * cif0.datasize) 0,
                      off := 0 } }) := by
  obtain ⟨fp, rest, ho, hp, hw, hfc, hnc, hk, hs, hd⟩ := hA
  simp only [cif_add_files]
  rw [cif_add_file_first fs junk name mode fp cif0 w fc nc k (data ++ rest) ho hp hw hfc hnc hk
    hs hbuf]

/-- The loop stops with NULL at a first file that is not consistent with the
aggregate. -/
theorem cif_add_files_inconsistent (fs : List Char → Option (List Nat)) (junk : CifData)
    (mode : XFILE_MODE) (name : List Char) (names : List (List Char)) (c : CifData) (p : Ptr)
    (w fc nc k : Nat) (data : List Nat)
    (hA : holdsRecord fs mode name w fc nc k data)
    (hbuf : c.intensity = some p)
    (hne : c.version ≠ 1 ∨ c.datasize ≠ w ∨ c.ncluster ≠ k) :
    cif_add_files fs junk mode (name :: names) (some c) = Res.ok none := by
  obtain ⟨fp, rest, ho, hp, hw, hfc, hnc, hk, hs, hd⟩ := hA
  simp only [cif_add_files]
  rw [cif_add_file_inconsistent fs junk name mode fp c p w fc nc k (data ++ rest) ho hp hw hfc
    hnc hk hs hbuf hne]
  simp only [Res.bind_ok]
  exact cif_add_files_null fs junk mode names

/-! ### Splicing -/

/-- The byte offset of spliceCIF does not wrap for a 16-bit offset. -/
theorem offset8_lt (offset k w : Nat) (ho : offset < 65536) (hk : k < 2 ^ 32) (hw : w < 256) :
    offset * NCHANNEL * k * w < 2 ^ 64 := by
  have h1 : offset * NCHANNEL ≤ 65535 * 4 := by simp only [NCHANNEL]; omega
  have h2 : offset * NCHANNEL * k ≤ 65535 * 4 * (2 ^ 32 - 1) :=
    Nat.mul_le_mul h1 (by omega)
  have h3 : offset * NCHANNEL * k * w ≤ 65535 * 4 * (2 ^ 32 - 1) * 255 :=
    Nat.mul_le_mul h2 (by omega)
  have h4 : 65535 * 4 * (2 ^ 32 - 1) * 255 < 2 ^ 64 := by norm_num
  omega

/-- A splice whose window lies in the source: the copy holds the bytes of the
source from the byte offset on, as many as the 32-bit element count says, if
the source block holds them; otherwise the copy reads past the end of the
source block. -/
theorem spliceCIF_mod (c : CifData) (p : Ptr) (ncycle offset : Nat)
    (hbuf : c.intensity = some p) (hr : offset + ncycle ≤ c.ncycle)
    (hnc : c.ncycle < 65536) (hk : c.ncluster < 2 ^ 32) (hw : c.datasize < 256) :
    spliceCIF (some c) ncycle offset =
      if (ncycle * 4 * c.ncluster) % 2 ^ 32 * c.datasize ≠ 0 ∧
          p.block.length < p.off + offset * 4 * c.ncluster * c.datasize +
            (ncycle * 4 * c.ncluster) % 2 ^ 32 * c.datasize
      then Res.fault
      else Res.ok (some { c with
        firstcycle := 1,
        ncycle := ncycle,
        intensity := some
          { block := (p.block.drop (p.off + offset * 4 * c.ncluster * c.datasize)).take
              ((ncycle * 4 * c.ncluster) % 2 ^ 32 * c.datasize),
            off := 0 } }) := by
  have e1 : (offset + ncycle) % 2 ^ 64 = offset + ncycle := Nat.mod_eq_of_lt (by omega)
  have e2 : ncycle % 65536 = ncycle := Nat.mod_eq_of_lt (by omega)
  have e3 : ((NCHANNEL * c.ncluster) % 2 ^ 32 * ncycle) % 2 ^ 32
      = (ncycle * 4 * c.ncluster) % 2 ^ 32 := wrap32_read _ _
  have e4 : (offset * NCHANNEL * c.ncluster * c.datasize) % 2 ^ 64
      = offset * 4 * c.ncluster * c.datasize :=
    Nat.mod_eq_of_lt (offset8_lt offset c.ncluster c.datasize (by omega) hk hw)
  simp only [spliceCIF, e1, e2, e3, e4, hbuf, Option.map_some']
  rw [if_neg (by omega)]
  unfold memcpy
  by_cases h0 : (ncycle * 4 * c.ncluster) % 2 ^ 32 * c.datasize = 0
  · rw [if_pos h0, if_neg (fun h => h.1 h0)]
    simp only [h0, Res.bind_ok, List.replicate_zero, List.take_zero]
  · rw [if_neg h0]
    simp only [List.length_replicate]
    by_cases hs : p.block.length < p.off + offset * 4 * c.ncluster * c.datasize +
        (ncycle * 4 * c.ncluster) % 2 ^ 32 * c.datasize
    · rw [if_pos (Or.inl hs), if_pos ⟨h0, hs⟩]
      rfl
    · rw [if_neg (by omega), if_neg (fun h => hs h.2)]
      simp

/-- A splice whose window lies in the source, whose element count does not
wrap and whose source block holds the window. -/
theorem spliceCIF_ok (c : CifData) (p : Ptr) (ncycle offset : Nat)
    (hbuf : c.intensity = some p) (hr : offset + ncycle ≤ c.ncycle)
    (hnc : c.ncycle < 65536) (hk : c.ncluster < 2 ^ 32) (hw : c.datasize < 256)
    (hlt : ncycle * 4 * c.ncluster < 2 ^ 32)
    (hsrc : p.off + (offset + ncycle) * 4 * c.ncluster * c.datasize ≤ p.block.length) :
    spliceCIF (some c) ncycle offset =
      Res.ok (some { c with
        firstcycle := 1,
        ncycle := ncycle,
        intensity := some
          { block := (p.block.drop (p.off + offset * 4 * c.ncluster * c.datasize)).take
              (ncycle * 4 * c.ncluster * c.datasize),
            off := 0 } }) := by
  have e5 : (offset + ncycle) * 4 * c.ncluster * c.datasize =
      offset * 4 * c.ncluster * c.datasize + ncycle * 4 * c.ncluster * c.datasize := by ring
  rw [spliceCIF_mod c p ncycle offset hbuf hr hnc hk hw, Nat.mod_eq_of_lt hlt,
    if_neg (fun h => by omega)]

/-- A window of a window is a window. -/
theorem take_drop_take_drop (l : List Nat) (a n b m : Nat) (h : b + m ≤ n) :
    (((l.drop a).take n).drop b).take m = (l.drop (a + b)).take m := by
  apply List.ext_getElem?
  intro i
  simp only [List.getElem?_take, List.getElem?_drop]
  by_cases hi : i < m
  · rw [if_pos hi, if_pos hi, if_pos (by omega)]
    congr 1
    omega
  · rw [if_neg hi, if_neg hi]

/-- The elements of a window of a block that starts and ends at element
boundaries are the elements of the block. -/
theorem elemAt_window (w : Nat) (blk : List Nat) (a n i : Nat) (hi : i < n) :
    elemAt w ((blk.drop (w * a)).take (w * n)) i = elemAt w blk (a + i) := by
  apply elemAt_congr
  intro j hj
  have h1 : w * i + j < w * n := by
    have : w * (i + 1) ≤ w * n := Nat.mul_le_mul_left _ hi
    rw [Nat.mul_add, Nat.mul_one] at this
    omega
  rw [List.getElem?_take, if_pos h1, List.getElem?_drop]
  congr 1
  rw [Nat.mul_add]
  omega

/-- Adding A and then B to an aggregate of width 1 or 2: every element of the
range of B holds the value B gives it, and every element of the range of A
outside the range of B holds the value A gives it. -/
theorem cif_add_files_overlap (fs : List Char → Option (List Nat)) (junk : CifData)
    (mode : XFILE_MODE) (nameA nameB : List Char) (c : CifData) (blk : List Nat)
    (w k fcA ncA fcB ncB : Nat) (dataA dataB : List Nat)
    (hA : holdsRecord fs mode nameA w fcA ncA k dataA)
    (hB : holdsRecord fs mode nameB w fcB ncB k dataB)
    (hw : w = 1 ∨ w = 2)
    (hbuf : c.intensity = some { block := blk, off := 0 })
    (hcv : c.version = 1) (hcw : c.datasize = w) (hck : c.ncluster = k)
    (h1A : 1 ≤ fcA) (h1B : 1 ≤ fcB)
    (hposA : 0 < ncA * 4 * k) (hposB : 0 < ncB * 4 * k)
    (hltA : ncA * 4 * k < 2 ^ 32) (holtA : (fcA - 1) * k * 4 < 2 ^ 32)
    (hltB : ncB * 4 * k < 2 ^ 32) (holtB : (fcB - 1) * k * 4 < 2 ^ 32)
    (hfitA : w * ((fcA - 1) * k * 4) + dataA.length ≤ blk.length)
    (hfitB : w * ((fcB - 1) * k * 4) + dataB.length ≤ blk.length) :
    ∃ out : List Nat,
      cif_add_files fs junk mode [nameA, nameB] (some c) =
        Res.ok (some { c with intensity := some { block := out, off := 0 } }) ∧
      (∀ e, (fcB - 1) * k * 4 ≤ e → e < (fcB - 1) * k * 4 + ncB * 4 * k →
        elemAt w out e = elemAt w dataB (e - (fcB - 1) * k * 4)) ∧
      (∀ e, (fcA - 1) * k * 4 ≤ e → e < (fcA - 1) * k * 4 + ncA * 4 * k →
        ¬ ((fcB - 1) * k * 4 ≤ e ∧ e < (fcB - 1) * k * 4 + ncB * 4 * k) →
        elemAt w out e = elemAt w dataA (e - (fcA - 1) * k * 4)) := by
  have hdA : dataA.length = w * (ncA * 4 * k) := by
    obtain ⟨-, -, -, -, -, -, -, -, -, h⟩ := hA; exact h
  have hdB : dataB.length = w * (ncB * 4 * k) := by
    obtain ⟨-, -, -, -, -, -, -, -, -, h⟩ := hB; exact h
  have two := cif_add_files_two fs junk mode nameA nameB c { block := blk, off := 0 } w k fcA ncA
    fcB ncB dataA dataB hA hB hbuf hcv hcw hck h1A h1B hltA holtA hltB holtB
    (by simpa using hfitA) (by simpa using hfitB)
  rw [if_neg (by omega), if_neg (by omega)] at two
  simp only [Nat.zero_add] at two
  refine ⟨_, two, ?_, ?_⟩
  · intro e he1 he2
    apply elemAt_congr
    intro j hj
    have g := getElem?_placeAt (placeAt blk (w * ((fcA - 1) * k * 4)) dataA)
      (w * ((fcB - 1) * k * 4)) dataB (by rw [length_placeAt _ _ _ hfitA]; exact hfitB)
      (w * e + j)
    rw [g]
    generalize (fcB - 1) * k * 4 = oB at *
    generalize ncB * 4 * k = nB at *
    rcases hw with rfl | rfl
    · rw [if_neg (by omega), if_pos (by omega)]
      congr 1
      omega
    · rw [if_neg (by omega), if_pos (by omega)]
      congr 1
      omega
  · intro e he1 he2 hnb
    apply elemAt_congr
    intro j hj
    have g := getElem?_placeAt (placeAt blk (w * ((fcA - 1) * k * 4)) dataA)
      (w * ((fcB - 1) * k * 4)) dataB (by rw [length_placeAt _ _ _ hfitA]; exact hfitB)
      (w * e + j)
    have g2 := getElem?_placeAt blk (w * ((fcA - 1) * k * 4)) dataA hfitA (w * e + j)
    rw [g, g2]
    generalize (fcB - 1) * k * 4 = oB at *
    generalize ncB * 4 * k = nB at *
    generalize (fcA - 1) * k * 4 = oA at *
    generalize ncA * 4 * k = nA at *
    rcases hw with rfl | rfl
    · have e1 : 1 * e + j - 1 * oA = 1 * (e - oA) + j := by omega
      split_ifs <;> first | omega | rw [e1]
    · have e1 : 2 * e + j - 2 * oA = 2 * (e - oA) + j := by omega
      split_ifs <;> first | omega | rw [e1]

/-! ### The suffix of a file name -/

/-- What the loop of find_suffix finds: the last '.' at an index from 1 to i,
if there is one. -/
theorem find_suffix_loop_spec (fn : List Char) (i : Nat) :
    (∀ s, find_suffix_loop fn i = some s →
      ∃ j, 1 ≤ j ∧ j ≤ i ∧ fn[j]? = some '.' ∧ s = fn.drop (j + 1) ∧
        ∀ m, j < m → m ≤ i → fn[m]? ≠ some '.') ∧
    (find_suffix_loop fn i = none → ∀ m, 1 ≤ m → m ≤ i → fn[m]? ≠ some '.') := by
  induction i with
  | zero =>
    refine ⟨fun s h => ?_, fun _ m h1 h2 => ?_⟩
    · simp [find_suffix_loop] at h
    · omega
  | succ i ih =>
    by_cases hd : fn[i + 1]? = some '.'
    · refine ⟨fun s h => ?_, fun h => ?_⟩
      · simp only [find_suffix_loop, hd, if_true, Option.some.injEq] at h
        exact ⟨i + 1, by omega, le_refl _, hd, h.symm, fun m h1 h2 => by omega⟩
      · simp [find_suffix_loop, hd] at h
    · have e : find_suffix_loop fn (i + 1) = find_suffix_loop fn i := by
        simp only [find_suffix_loop, hd, if_false]
      rw [e]
      refine ⟨fun s h => ?_, fun h m h1 h2 => ?_⟩
      · obtain ⟨j, h1, h2, h3, h4, h5⟩ := ih.1 s h
        refine ⟨j, h1, by omega, h3, h4, fun m hm1 hm2 => ?_⟩
        rcases Nat.lt_or_ge m (i + 1) with hlt | hge
        · exact h5 m hm1 (by omega)
        · have : m = i + 1 := by omega
          subst this
          exact hd
      · rcases Nat.lt_or_ge m (i + 1) with hlt | hge
        · exact ih.2 h m h1 (by omega)
        · have : m = i + 1 := by omega
          subst this
          exact hd

theorem find_suffix_ok (fn : List Char) (hne : fn ≠ []) : ∃ s, find_suffix fn = Res.ok s := by
  have hl : fn.length ≠ 0 := by simpa using hne
  unfold find_suffix
  rw [if_neg hl]
  cases find_suffix_loop fn (fn.length - 1) with
  | some s => exact ⟨s, rfl⟩
  | none =>
    simp only
    split <;> exact ⟨_, rfl⟩

/-- find_suffix returns a non-empty text without '.' exactly for the names that
end in '.' followed by that text. -/
theorem find_suffix_eq_iff (fn : List Char) (hne : fn ≠ []) (t : List Char)
    (ht : '.' ∉ t) (htne : t ≠ []) :
    find_suffix fn = Res.ok t ↔ ∃ pre, fn = pre ++ '.' :: t := by
  have hl : fn.length ≠ 0 := by simpa using hne
  have spec := find_suffix_loop_spec fn (fn.length - 1)
  constructor
  · intro h
    unfold find_suffix at h
    rw [if_neg hl] at h
    cases hloop : find_suffix_loop fn (fn.length - 1) with
    | some s =>
      rw [hloop] at h
      simp only [Res.ok.injEq] at h
      obtain ⟨j, h1, h2, h3, h4, -⟩ := spec.1 s hloop
      have hj : j < fn.length := by omega
      refine ⟨fn.take j, ?_⟩
      have hg : fn[j] = '.' := by
        rw [List.getElem?_eq_getElem hj] at h3
        exact Option.some.inj h3
      rw [← h, h4, ← hg, ← List.drop_eq_getElem_cons hj, List.take_append_drop]
    | none =>
      rw [hloop] at h
      simp only at h
      split at h
      · rename_i h0
        simp only [Res.ok.injEq] at h
        refine ⟨[], ?_⟩
        cases fn with
        | nil => exact absurd rfl hne
        | cons a rest =>
          simp only [List.getElem?_cons_zero, Option.some.injEq] at h0
          simp only [List.drop_succ_cons, List.drop_zero] at h
          simp [h0, h]
      · simp only [Res.ok.injEq, List.drop_length] at h
        exact absurd h.symm htne
  · rintro ⟨pre, rfl⟩
    have hlen : (pre ++ '.' :: t).length = pre.length + 1 + t.length := by
      simp only [List.length_append, List.length_cons]; omega
    have hdot : (pre ++ '.' :: t)[pre.length]? = some '.' := by
      rw [List.getElem?_append_right (le_refl _)]
      simp
    have hafter : ∀ m, pre.length < m → (pre ++ '.' :: t)[m]? ≠ some '.' := by
      intro m hm hc
      rw [List.getElem?_append_right (by omega)] at hc
      obtain ⟨n, hn⟩ : ∃ n, m - pre.length = n + 1 := ⟨m - pre.length - 1, by omega⟩
      rw [hn, List.getElem?_cons_succ] at hc
      exact ht (List.getElem?_mem hc)
    have hdrop : (pre ++ '.' :: t).drop (pre.length + 1) = t := by
      rw [List.drop_append 1]
      rfl
    unfold find_suffix
    rw [if_neg hl]
    cases hloop : find_suffix_loop (pre ++ '.' :: t) ((pre ++ '.' :: t).length - 1) with
    | some s =>
      obtain ⟨j, h1, h2, h3, h4, h5⟩ := spec.1 s hloop
      simp only [Res.ok.injEq]
      have hj : j = pre.length := by
        rcases Nat.lt_trichotomy j pre.length with h | h | h
        · exact absurd hdot (h5 pre.length h (by omega))
        · exact h
        · exact absurd h3 (hafter j h)
      rw [h4, hj, hdrop]
    | none =>
      have h0 : pre.length = 0 := by
        rcases Nat.eq_zero_or_pos pre.length with h | h
        · exact h
        · exact absurd hdot (spec.2 hloop pre.length h (by omega))
      have hp : pre = [] := List.length_eq_zero.mp h0
      subst hp
      simp

/-! ## The properties C11 to C20 of the specification -/

/-- C11: aggregation result header. A call of cif_add_file that returns an
aggregate leaves the aggregate's version, firstCycle and cycleCount unchanged;
so for an aggregate made by new_cif with its cycleCount set to N (and any
width), every sequence of cif_add_file calls that returns an aggregate returns
one with version 1, firstCycle 1 and cycleCount N. -/
theorem C11_aggregate_header (fs : List Char → Option (List Nat)) (junk : CifData)
    (mode : XFILE_MODE) (n w : Nat) :
    (∀ (fn : Option (List Char)) (cif0 agg : CifData),
      cif_add_file fs junk fn mode (some cif0) = Res.ok (some agg) →
      agg.version = cif0.version ∧ agg.firstcycle = cif0.firstcycle ∧
        agg.ncycle = cif0.ncycle) ∧
    (∀ (names : List (List Char)) (agg : CifData),
      cif_add_files fs junk mode names (some { new_cif with ncycle := n, datasize := w })
        = Res.ok (some agg) →
      agg.version = 1 ∧ agg.firstcycle = 1 ∧ agg.ncycle = n) :=
  ⟨fun fn cif0 agg h => cif_add_file_keeps_header fs junk fn mode cif0 agg h,
   fun names agg h => cif_add_files_keeps_header fs junk mode names _ agg h⟩

/-- Scenario B as an instance of C11: the aggregate of the two files has
version 1, firstCycle 1 and cycleCount 2. -/
theorem C11_aggregate_header_witness :
    ({ version := 1, datasize := 1, firstcycle := 1, ncycle := 2, ncluster := 3,
       intensity := some { block := scenarioB_full, off := 0 } } : CifData).version = 1 ∧
    ({ version := 1, datasize := 1, firstcycle := 1, ncycle := 2, ncluster := 3,
       intensity := some { block := scenarioB_full, off := 0 } } : CifData).firstcycle = 1 ∧
    ({ version := 1, datasize := 1, firstcycle := 1, ncycle := 2, ncluster := 3,
       intensity := some { block := scenarioB_full, off := 0 } } : CifData).ncycle = 2 :=
  (C11_aggregate_header scenarioB_fs new_cif XFILE_MODE.XFILE_RAW 2 1).2
    [['C', '1'], ['C', '2']]
    { version := 1, datasize := 1, firstcycle := 1, ncycle := 2, ncluster := 3,
      intensity := some { block := scenarioB_full, off := 0 } }
    (by decide)

/-- C12: aggregation order independence. For a fresh aggregate (no buffer yet)
and two complete files A and B that are consistent with each other (version 1,
the same width and number of clusters), whose destinations lie inside the
buffer the aggregate allocates and whose cycle ranges are disjoint, adding A
then B gives the same result as adding B then A; when the aggregate has the
version and width of the files and the files are not empty, that result is an
aggregate. -/
theorem C12_order_independence (fs : List Char → Option (List Nat)) (junk : CifData)
    (mode : XFILE_MODE) (nameA nameB : List Char) (cif0 : CifData)
    (w k fcA ncA fcB ncB : Nat) (dataA dataB : List Nat)
    (hA : holdsRecord fs mode nameA w fcA ncA k dataA)
    (hB : holdsRecord fs mode nameB w fcB ncB k dataB)
    (hfresh : cif0.intensity = none)
    (h1A : 1 ≤ fcA) (h1B : 1 ≤ fcB)
    (hfitA : (fcA - 1) * k * 4 + ncA * 4 * k ≤ (cif0.ncycle * 4 * k) % 2 ^ 32)
    (hfitB : (fcB - 1) * k * 4 + ncB * 4 * k ≤ (cif0.ncycle * 4 * k) % 2 ^ 32)
    (hdisj : fcA - 1 + ncA ≤ fcB - 1 ∨ fcB - 1 + ncB ≤ fcA - 1) :
    cif_add_files fs junk mode [nameA, nameB] (some cif0) =
      cif_add_files fs junk mode [nameB, nameA] (some cif0) ∧
    (cif0.version = 1 → cif0.datasize = w → 0 < ncA * 4 * k → 0 < ncB * 4 * k →
      ∃ agg, cif_add_files fs junk mode [nameA, nameB] (some cif0) = Res.ok (some agg)) := by
  have hA2 := hA
  have hB2 := hB
  obtain ⟨-, -, -, -, hw, -, -, hk, -, hdA⟩ := hA2
  obtain ⟨-, -, -, -, -, -, -, -, -, hdB⟩ := hB2
  have halloc : (cif0.ncycle * 4 * k) % 2 ^ 32 < 2 ^ 32 := Nat.mod_lt _ (by norm_num)
  have hbA : w * ((fcA - 1) * k * 4) + dataA.length ≤ (cif0.ncycle * 4 * k) % 2 ^ 32 * w := by
    rw [hdA, ← Nat.mul_add, Nat.mul_comm]
    exact Nat.mul_le_mul_right _ hfitA
  have hbB : w * ((fcB - 1) * k * 4) + dataB.length ≤ (cif0.ncycle * 4 * k) % 2 ^ 32 * w := by
    rw [hdB, ← Nat.mul_add, Nat.mul_comm]
    exact Nat.mul_le_mul_right _ hfitB
  have hdis : w * ((fcA - 1) * k * 4) + dataA.length ≤ w * ((fcB - 1) * k * 4) ∨
      w * ((fcB - 1) * k * 4) + dataB.length ≤ w * ((fcA - 1) * k * 4) := by
    rcases hdisj with h | h
    · left
      have h2 := Nat.mul_le_mul_right (k * 4) h
      rw [hdA, ← Nat.mul_add]
      apply Nat.mul_le_mul_left
      calc (fcA - 1) * k * 4 + ncA * 4 * k = (fcA - 1 + ncA) * (k * 4) := by ring
        _ ≤ (fcB - 1) * (k * 4) := h2
        _ = (fcB - 1) * k * 4 := by ring
    · right
      have h2 := Nat.mul_le_mul_right (k * 4) h
      rw [hdB, ← Nat.mul_add]
      apply Nat.mul_le_mul_left
      calc (fcB - 1) * k * 4 + ncB * 4 * k = (fcB - 1 + ncB) * (k * 4) := by ring
        _ ≤ (fcA - 1) * (k * 4) := h2
        _ = (fcA - 1) * k * 4 := by ring
  by_cases hc : cif0.version = 1 ∧ cif0.datasize = w
  · obtain ⟨hcv, hcw⟩ := hc
    have tAB := cif_add_files_two fs junk mode nameA nameB
      { cif0 with
          ncluster := k,
          intensity := some
            { block := List.replicate ((cif0.ncycle * 4 * k) % 2 ^ 32 * cif0.datasize) 0,
              off := 0 } }
      { block := List.replicate ((cif0.ncycle * 4 * k) % 2 ^ 32 * cif0.datasize) 0, off := 0 }
      w k fcA ncA fcB ncB dataA dataB hA hB rfl hcv hcw rfl h1A h1B (by omega) (by omega)
      (by omega) (by omega)
      (by simp only [List.length_replicate, hcw]; omega)
      (by simp only [List.length_replicate, hcw]; omega)
    have tBA := cif_add_files_two fs junk mode nameB nameA
      { cif0 with
          ncluster := k,
          intensity := some
            { block := List.replicate ((cif0.ncycle * 4 * k) % 2 ^ 32 * cif0.datasize) 0,
              off := 0 } }
      { block := List.replicate ((cif0.ncycle * 4 * k) % 2 ^ 32 * cif0.datasize) 0, off := 0 }
      w k fcB ncB fcA ncA dataB dataA hB hA rfl hcv hcw rfl h1B h1A (by omega) (by omega)
      (by omega) (by omega)
      (by simp only [List.length_replicate, hcw]; omega)
      (by simp only [List.length_replicate, hcw]; omega)
    rw [cif_add_files_first fs junk mode nameA [nameB] cif0 w fcA ncA k dataA hA hfresh,
      cif_add_files_first fs junk mode nameB [nameA] cif0 w fcB ncB k dataB hB hfresh,
      tAB, tBA]
    constructor
    · by_cases h0 : ncA * 4 * k = 0 ∨ ncB * 4 * k = 0
      · rw [if_pos h0, if_pos (Or.symm h0)]
      · rw [if_neg h0, if_neg (fun h => h0 (Or.symm h))]
        by_cases h4 : w = 4
        · rw [if_pos h4, if_pos h4]
        · rw [if_neg h4, if_neg h4]
          simp only [Nat.zero_add]
          rw [placeAt_comm _ _ _ _ _
            (by simp only [List.length_replicate, hcw]; omega)
            (by simp only [List.length_replicate, hcw]; omega) hdis]
    · intro _ _ hpA hpB
      rw [if_neg (by omega)]
      by_cases h4 : w = 4
      · rw [if_pos h4]; exact ⟨_, rfl⟩
      · rw [if_neg h4]; exact ⟨_, rfl⟩
  · have hne : cif0.version ≠ 1 ∨ cif0.datasize ≠ w ∨ k ≠ k := by
      by_cases hv : cif0.version = 1
      · exact Or.inr (Or.inl (fun h => hc ⟨hv, h⟩))
      · exact Or.inl hv
    have iA := cif_add_files_inconsistent fs junk mode nameA [nameB]
      { cif0 with
          ncluster := k,
          intensity := some
            { block := List.replicate ((cif0.ncycle * 4 * k) % 2 ^ 32 * cif0.datasize) 0,
              off := 0 } }
      { block := List.replicate ((cif0.ncycle * 4 * k) % 2 ^ 32 * cif0.datasize) 0, off := 0 }
      w fcA ncA k dataA hA rfl hne
    have iB := cif_add_files_inconsistent fs junk mode nameB [nameA]
      { cif0 with
          ncluster := k,
          intensity := some
            { block := List.replicate ((cif0.ncycle * 4 * k) % 2 ^ 32 * cif0.datasize) 0,
              off := 0 } }
      { block := List.replicate ((cif0.ncycle * 4 * k) % 2 ^ 32 * cif0.datasize) 0, off := 0 }
      w fcB ncB k dataB hB rfl hne
    rw [cif_add_files_first fs junk mode nameA [nameB] cif0 w fcA ncA k dataA hA hfresh,
      cif_add_files_first fs junk mode nameB [nameA] cif0 w fcB ncB k dataB hB hfresh, iA, iB]
    exact ⟨rfl, fun h1 h2 => absurd ⟨h1, h2⟩ hc⟩

/-- Scenario B as an instance of C12: the two single-cycle files in both
orders. -/
theorem C12_order_independence_witness :
    cif_add_files scenarioB_fs new_cif XFILE_MODE.XFILE_RAW [['C', '1'], ['C', '2']]
        (some { version := 1, datasize := 1, firstcycle := 1, ncycle := 2, ncluster := 0,
                intensity := none })
      = cif_add_files scenarioB_fs new_cif XFILE_MODE.XFILE_RAW [['C', '2'], ['C', '1']]
        (some { version := 1, datasize := 1, firstcycle := 1, ncycle := 2, ncluster := 0,
                intensity := none }) ∧
    (∃ agg, cif_add_files scenarioB_fs new_cif XFILE_MODE.XFILE_RAW [['C', '1'], ['C', '2']]
        (some { version := 1, datasize := 1, firstcycle := 1, ncycle := 2, ncluster := 0,
                intensity := none })
      = Res.ok (some agg)) :=
  have t := C12_order_independence scenarioB_fs new_cif XFILE_MODE.XFILE_RAW
    ['C', '1'] ['C', '2']
    { version := 1, datasize := 1, firstcycle := 1, ncycle := 2, ncluster := 0,
      intensity := none }
    1 3 1 1 2 1 [1, 2, 3, 4, 5, 6, 7, 8, 9, 10, 11, 12]
    [13, 14, 15, 16, 17, 18, 19, 20, 21, 22, 23, 24]
    ⟨{ mode := XFILE_MODE.XFILE_RAW,
       fh := wireHeader 1 1 1 1 3 ++ [1, 2, 3, 4, 5, 6, 7, 8, 9, 10, 11, 12] }, [],
     rfl, by decide, by decide, by decide, by decide, by decide, by decide, by decide⟩
    ⟨{ mode := XFILE_MODE.XFILE_RAW,
       fh := wireHeader 1 1 2 1 3 ++ [13, 14, 15, 16, 17, 18, 19, 20, 21, 22, 23, 24] }, [],
     rfl, by decide, by decide, by decide, by decide, by decide, by decide, by decide⟩
    rfl (by decide) (by decide) (by decide) (by decide) (by decide)
  ⟨t.1, t.2 rfl rfl (by decide) (by decide)⟩

/-- C13 as stated fails: a count of 0 is not refused. Splicing 0 cycles at
offset 1 out of the four-cycle source of scenario C returns a CifFile with
cycleCount 0 and an empty buffer. -/
theorem C13_zero_count_accepted :
    spliceCIF (some scenarioC_source) 0 1 =
      Res.ok (some { version := 1, datasize := 1, firstcycle := 1, ncycle := 0, ncluster := 1,
                     intensity := some { block := [], off := 0 } }) := by
  decide

/-- C13 (amended): splice range errors. For every source CifFile, offset (a
size_t) and count, spliceCIF returns NULL if and only if offset + count, formed
modulo 2 ^ 64, exceeds the source's cycleCount; when the sum does not wrap that
is offset + count > cycleCount. A count of 0 is not refused: with an offset
inside the source the result is a CifFile with firstCycle 1, cycleCount 0 and
an empty buffer. -/
theorem C13_splice_range (c : CifData) (ncycle offset : Nat) :
    (spliceCIF (some c) ncycle offset = Res.ok none ↔
      (offset + ncycle) % 2 ^ 64 > c.ncycle) ∧
    (offset + ncycle < 2 ^ 64 →
      (spliceCIF (some c) ncycle offset = Res.ok none ↔ offset + ncycle > c.ncycle)) ∧
    (offset < 2 ^ 64 → offset ≤ c.ncycle →
      spliceCIF (some c) 0 offset =
        Res.ok (some { c with firstcycle := 1, ncycle := 0,
                              intensity := some { block := [], off := 0 } })) := by
  have key : spliceCIF (some c) ncycle offset = Res.ok none ↔
      (offset + ncycle) % 2 ^ 64 > c.ncycle := by
    simp only [spliceCIF]
    by_cases h : (offset + ncycle) % 2 ^ 64 > c.ncycle
    · rw [if_pos h]
      exact ⟨fun _ => h, fun _ => rfl⟩
    · rw [if_neg h]
      constructor
      · intro hh
        exfalso
        cases hm : memcpy
          (List.replicate (((NCHANNEL * c.ncluster) % 2 ^ 32 * (ncycle % 65536)) % 2 ^ 32 *
            c.datasize) 0) 0
          (c.intensity.map fun p =>
            { p with off := p.off + (offset * NCHANNEL * c.ncluster * c.datasize) % 2 ^ 64 })
          (((NCHANNEL * c.ncluster) % 2 ^ 32 * (ncycle % 65536)) % 2 ^ 32 * c.datasize) with
        | ok b => rw [hm] at hh; simp at hh
        | abort => rw [hm] at hh; simp at hh
        | fault => rw [hm] at hh; simp at hh
      · intro hh
        exact absurd hh h
  refine ⟨key, ?_, ?_⟩
  · intro hlt
    rw [key, Nat.mod_eq_of_lt hlt]
  · intro hlt hle
    simp only [spliceCIF, Nat.add_zero, Nat.mod_eq_of_lt hlt, Nat.zero_mod, Nat.mul_zero,
      Nat.zero_mul, memcpy, List.replicate_zero]
    rw [if_neg (by omega)]
    rfl

/-- Instances of C13 on the source of scenario C: a window that ends after
the source is refused, an empty window inside it is not. -/
theorem C13_splice_range_witness :
    spliceCIF (some scenarioC_source) 4 1 = Res.ok none ∧
    spliceCIF (some scenarioC_source) 0 1 =
      Res.ok (some { scenarioC_source with firstcycle := 1, ncycle := 0,
                                           intensity := some { block := [], off := 0 } }) :=
  ⟨((C13_splice_range scenarioC_source 4 1).2.1 (by decide)).mpr (by decide),
   (C13_splice_range scenarioC_source 0 1).2.2 (by decide) (by decide)⟩

/-- C14 as stated fails: a source of 1024 cycles of 2 ^ 20 clusters of width 1
(2 ^ 32 elements) and the window of all its cycles. The 32-bit element count
wraps to 0 and the copy has an empty buffer, not 1024 * 4 * 2 ^ 20 elements. -/
theorem C14_splice_count_wraps :
    spliceCIF
        (some { version := 1, datasize := 1, firstcycle := 1, ncycle := 1024,
                ncluster := 1048576,
                intensity := some { block := List.replicate 4294967296 0, off := 0 } })
        1024 0
      = Res.ok (some { version := 1, datasize := 1, firstcycle := 1, ncycle := 1024,
                       ncluster := 1048576, intensity := some { block := [], off := 0 } }) ∧
    1024 * 4 * 1048576 ≠ ([] : List Nat).length := by
  decide

/-- C14 (amended): splice contents. For a source CifFile with sample width in
1, 2, 4 whose buffer holds cycleCount * 4 * clusterCount elements, and offset,
count with offset + count within the source's cycleCount and
count * 4 * clusterCount below 2 ^ 32 (count > 0 is not needed), spliceCIF
returns a CifFile with
firstCycle 1, cycleCount count, the source's version, clusterCount and width,
and a buffer of count * 4 * clusterCount elements: the source's bytes from
element offset * clusterCount * 4 on, element i of the copy being element
offset * clusterCount * 4 + i of the source. -/
theorem C14_splice_contents (c : CifData) (blk : List Nat) (ncycle offset : Nat)
    (hw : c.datasize = 1 ∨ c.datasize = 2 ∨ c.datasize = 4)
    (hnc : c.ncycle < 65536) (hk : c.ncluster < 2 ^ 32)
    (hbuf : c.intensity = some { block := blk, off := 0 })
    (hlen : blk.length = c.ncycle * 4 * c.ncluster * c.datasize)
    (hr : offset + ncycle ≤ c.ncycle)
    (hlt : ncycle * 4 * c.ncluster < 2 ^ 32) :
    ∃ out : List Nat,
      spliceCIF (some c) ncycle offset =
        Res.ok (some { version := c.version, datasize := c.datasize, firstcycle := 1,
                       ncycle := ncycle, ncluster := c.ncluster,
                       intensity := some { block := out, off := 0 } }) ∧
      out = (blk.drop (c.datasize * (offset * c.ncluster * 4))).take
              (c.datasize * (ncycle * 4 * c.ncluster)) ∧
      out.length = c.datasize * (ncycle * 4 * c.ncluster) ∧
      ∀ i, i < ncycle * 4 * c.ncluster →
        elemAt c.datasize out i = elemAt c.datasize blk (offset * c.ncluster * 4 + i) := by
  have hle : (offset + ncycle) * 4 * c.ncluster * c.datasize ≤ blk.length := by
    rw [hlen]
    exact Nat.mul_le_mul_right _ (Nat.mul_le_mul_right _ (Nat.mul_le_mul_right _ hr))
  have e1 : offset * 4 * c.ncluster * c.datasize = c.datasize * (offset * c.ncluster * 4) := by
    ring
  have e2 : ncycle * 4 * c.ncluster * c.datasize = c.datasize * (ncycle * 4 * c.ncluster) := by
    ring
  have e3 : (offset + ncycle) * 4 * c.ncluster * c.datasize =
      c.datasize * (offset * c.ncluster * 4) + c.datasize * (ncycle * 4 * c.ncluster) := by
    ring
  refine ⟨_, ?_, rfl, ?_, ?_⟩
  · rw [spliceCIF_ok c { block := blk, off := 0 } ncycle offset hbuf hr hnc hk (by omega) hlt
      (by simpa using hle)]
    simp only [Nat.zero_add, e1, e2]
  · rw [List.length_take, List.length_drop]
    omega
  · intro i hi
    exact elemAt_window c.datasize blk _ _ i hi

/-- Scenario C of the specification as an instance of C14: the window of 2
cycles at offset 1 of the four-cycle source holds the source's cycles 2 and
3. -/
theorem C14_splice_contents_witness :
    ∃ out : List Nat,
      spliceCIF (some scenarioC_source) 2 1 =
        Res.ok (some { version := 1, datasize := 1, firstcycle := 1, ncycle := 2, ncluster := 1,
                       intensity := some { block := out, off := 0 } }) ∧
      out = ([1, 2, 3, 4, 11, 12, 13, 14, 21, 22, 23, 24, 31, 32, 33, 34].drop
              (1 * (1 * 1 * 4))).take (1 * (2 * 4 * 1)) ∧
      out.length = 1 * (2 * 4 * 1) ∧
      ∀ i, i < 2 * 4 * 1 →
        elemAt 1 out i =
          elemAt 1 [1, 2, 3, 4, 11, 12, 13, 14, 21, 22, 23, 24, 31, 32, 33, 34]
            (1 * 1 * 4 + i) :=
  C14_splice_contents scenarioC_source
    [1, 2, 3, 4, 11, 12, 13, 14, 21, 22, 23, 24, 31, 32, 33, 34] 2 1
    (by decide) (by decide) (by decide) rfl (by decide) (by decide) (by decide)

/-- C15 as stated fails: for a source of 2048 cycles of 2 ^ 20 clusters of
width 2 (2 ^ 33 elements) the 32-bit element count wraps to 0 and the copy of
the whole source has an empty buffer. -/
theorem C15_splice_identity_wraps :
    spliceCIF
        (some { version := 1, datasize := 2, firstcycle := 7, ncycle := 2048,
                ncluster := 1048576,
                intensity := some { block := List.replicate 17179869184 0, off := 0 } })
        2048 0
      = Res.ok (some { version := 1, datasize := 2, firstcycle := 1, ncycle := 2048,
                       ncluster := 1048576, intensity := some { block := [], off := 0 } }) ∧
    List.replicate 17179869184 0 ≠ ([] : List Nat) := by
  decide

/-- C15 (amended): splice identity. For a source CifFile whose buffer holds
cycleCount * 4 * clusterCount elements, that count being below 2 ^ 32,
spliceCIF(source, source.cycleCount, 0) returns a CifFile whose buffer equals
the source's buffer and whose header equals the source's header except that
firstCycle is 1. -/
theorem C15_splice_identity (c : CifData) (blk : List Nat)
    (hw : c.datasize < 256) (hnc : c.ncycle < 65536) (hk : c.ncluster < 2 ^ 32)
    (hbuf : c.intensity = some { block := blk, off := 0 })
    (hlen : blk.length = c.ncycle * 4 * c.ncluster * c.datasize)
    (hlt : c.ncycle * 4 * c.ncluster < 2 ^ 32) :
    spliceCIF (some c) c.ncycle 0 =
      Res.ok (some { version := c.version, datasize := c.datasize, firstcycle := 1,
                     ncycle := c.ncycle, ncluster := c.ncluster,
                     intensity := some { block := blk, off := 0 } }) := by
  rw [spliceCIF_ok c { block := blk, off := 0 } c.ncycle 0 hbuf (by omega) hnc hk hw hlt
    (by simp only [Nat.zero_add]; omega)]
  simp only [Nat.zero_mul, Nat.zero_add, List.drop_zero]
  rw [List.take_of_length_le (by omega)]

/-- An instance of C15: the source of scenario C with firstCycle 5. -/
theorem C15_splice_identity_witness :
    spliceCIF
        (some { version := 1, datasize := 1, firstcycle := 5, ncycle := 4, ncluster := 1,
                intensity := some
                  { block := [1, 2, 3, 4, 11, 12, 13, 14, 21, 22, 23, 24, 31, 32, 33, 34],
                    off := 0 } })
        4 0
      = Res.ok (some { version := 1, datasize := 1, firstcycle := 1, ncycle := 4, ncluster := 1,
                       intensity := some
                         { block := [1, 2, 3, 4, 11, 12, 13, 14, 21, 22, 23, 24, 31, 32, 33, 34],
                           off := 0 } }) :=
  C15_splice_identity
    { version := 1, datasize := 1, firstcycle := 5, ncycle := 4, ncluster := 1,
      intensity := some
        { block := [1, 2, 3, 4, 11, 12, 13, 14, 21, 22, 23, 24, 31, 32, 33, 34], off := 0 } }
    [1, 2, 3, 4, 11, 12, 13, 14, 21, 22, 23, 24, 31, 32, 33, 34]
    (by decide) (by decide) (by decide) rfl (by decide) (by decide)

/-- C16 (the defect): an aggregate that has a buffer of width 4 and two
consistent, non-empty files A and B of width 4, whatever their cycle ranges.
Neither file is placed (the switch of cif_add_file has no case 4, as for C6):
after adding A and then B the aggregate is as it was, so the elements of the
overlap do not hold the values of B. -/
theorem C16_width_4_overlap_lost (fs : List Char → Option (List Nat)) (junk : CifData)
    (mode : XFILE_MODE) (nameA nameB : List Char) (c : CifData) (p : Ptr)
    (k fcA ncA fcB ncB : Nat) (dataA dataB : List Nat)
    (hA : holdsRecord fs mode nameA 4 fcA ncA k dataA)
    (hB : holdsRecord fs mode nameB 4 fcB ncB k dataB)
    (hbuf : c.intensity = some p)
    (hcv : c.version = 1) (hcw : c.datasize = 4) (hck : c.ncluster = k)
    (hposA : 0 < (ncA * 4 * k) % 2 ^ 32) (hposB : 0 < (ncB * 4 * k) % 2 ^ 32) :
    cif_add_files fs junk mode [nameA, nameB] (some c) = Res.ok (some c) := by
  obtain ⟨fpA, restA, hoA, hpA, -, hfcA, hncA, hk, hsA, -⟩ := hA
  obtain ⟨fpB, restB, hoB, hpB, -, hfcB, hncB, -, hsB, -⟩ := hB
  simp only [cif_add_files]
  rw [cif_add_file_width4 fs junk nameA mode fpA c p fcA ncA k (dataA ++ restA) hoA hpA hfcA
    hncA hk hsA hbuf hcv hcw hck hposA]
  simp only [Res.bind_ok, cif_add_files]
  rw [cif_add_file_width4 fs junk nameB mode fpB c p fcB ncB k (dataB ++ restB) hoB hpB hfcB
    hncB hk hsB hbuf hcv hcw hck hposB]
  rfl

/-- The failing input of C16: an aggregate of two cycles of one cluster of
width 4, all zero; file A holds cycles 1 and 2 with the elements 1 to 8, file B
holds cycle 2 with the elements 9 to 12. The aggregate comes back all zero. -/
theorem C16_width_4_overlap_lost_witness :
    cif_add_files
        (fun fn => if fn = ['A'] then
            some (wireHeader 1 4 1 2 1 ++ storeElems 4 [1, 2, 3, 4, 5, 6, 7, 8])
          else some (wireHeader 1 4 2 1 1 ++ storeElems 4 [9, 10, 11, 12]))
        new_cif XFILE_MODE.XFILE_RAW [['A'], ['B']]
        (some { version := 1, datasize := 4, firstcycle := 1, ncycle := 2, ncluster := 1,
                intensity := some { block := List.replicate 32 0, off := 0 } })
      = Res.ok (some { version := 1, datasize := 4, firstcycle := 1, ncycle := 2, ncluster := 1,
                       intensity := some { block := List.replicate 32 0, off := 0 } }) :=
  C16_width_4_overlap_lost
    (fun fn => if fn = ['A'] then
        some (wireHeader 1 4 1 2 1 ++ storeElems 4 [1, 2, 3, 4, 5, 6, 7, 8])
      else some (wireHeader 1 4 2 1 1 ++ storeElems 4 [9, 10, 11, 12]))
    new_cif XFILE_MODE.XFILE_RAW ['A'] ['B']
    { version := 1, datasize := 4, firstcycle := 1, ncycle := 2, ncluster := 1,
      intensity := some { block := List.replicate 32 0, off := 0 } }
    { block := List.replicate 32 0, off := 0 } 1 1 2 2 1
    (storeElems 4 [1, 2, 3, 4, 5, 6, 7, 8]) (storeElems 4 [9, 10, 11, 12])
    ⟨{ mode := XFILE_MODE.XFILE_RAW,
       fh := wireHeader 1 4 1 2 1 ++ storeElems 4 [1, 2, 3, 4, 5, 6, 7, 8] }, [],
     by decide, by decide, by decide, by decide, by decide, by decide, by decide, by decide⟩
    ⟨{ mode := XFILE_MODE.XFILE_RAW,
       fh := wireHeader 1 4 2 1 1 ++ storeElems 4 [9, 10, 11, 12] }, [],
     by decide, by decide, by decide, by decide, by decide, by decide, by decide, by decide⟩
    rfl rfl rfl rfl (by decide) (by decide)

/-- C17 as stated fails: with one cycle of 2 ^ 31 clusters the index of
showCIF wraps at 2 ^ 32, and the triples (cycle 0, base 0, cluster 0) and
(cycle 0, base 2, cluster 0) are read at the same index 0. -/
theorem C17_index_wraps :
    showCIF_index 2147483648 0 0 0 = showCIF_index 2147483648 0 2 0 ∧
    ((0, 0, 0) : Nat × Nat × Nat) ≠ (0, 2, 0) := by
  decide

/-- C17 (amended): layout index algebra. For every triple (c, b, k) with
c < cycleCount, b < 4, k < clusterCount the index at which showCIF reads the
element is smaller than cycleCount * 4 * clusterCount; when that product is at
most 2 ^ 32 the index is (c * 4 + b) * clusterCount + k and two different
in-range triples never have the same index; the cluster varies fastest. -/
theorem C17_layout_index (ncycle ncluster c b k c2 b2 k2 : Nat)
    (hc : c < ncycle) (hb : b < 4) (hk : k < ncluster)
    (hc2 : c2 < ncycle) (hb2 : b2 < 4) (hk2 : k2 < ncluster) :
    showCIF_index ncluster k b c < ncycle * 4 * ncluster ∧
    (ncycle * 4 * ncluster ≤ 2 ^ 32 →
      showCIF_index ncluster k b c = (c * 4 + b) * ncluster + k ∧
      (showCIF_index ncluster k b c = showCIF_index ncluster k2 b2 c2 →
        c = c2 ∧ b = b2 ∧ k = k2) ∧
      (k + 1 < ncluster →
        showCIF_index ncluster (k + 1) b c = showCIF_index ncluster k b c + 1)) := by
  have hform : ∀ k b c : Nat, showCIF_index ncluster k b c
      = ((c * 4 + b) * ncluster + k) % 2 ^ 32 := by
    intro k b c
    simp only [showCIF_index, NCHANNEL]
    rw [Nat.mod_mul_mod, Nat.mod_add_mod]
  have hbound : ∀ k b c : Nat, c < ncycle → b < 4 → k < ncluster →
      (c * 4 + b) * ncluster + k < ncycle * 4 * ncluster := by
    intro k b c hc hb hk
    have h1 : (c * 4 + b + 1) * ncluster ≤ ncycle * 4 * ncluster :=
      Nat.mul_le_mul_right _ (by omega)
    have h2 : (c * 4 + b + 1) * ncluster = (c * 4 + b) * ncluster + ncluster := by ring
    omega
  refine ⟨?_, ?_⟩
  · rw [hform]
    exact Nat.lt_of_le_of_lt (Nat.mod_le _ _) (hbound k b c hc hb hk)
  · intro hle
    have hv : ∀ k b c : Nat, c < ncycle → b < 4 → k < ncluster →
        showCIF_index ncluster k b c = (c * 4 + b) * ncluster + k := by
      intro k b c hc hb hk
      rw [hform]
      exact Nat.mod_eq_of_lt (Nat.lt_of_lt_of_le (hbound k b c hc hb hk) hle)
    refine ⟨hv k b c hc hb hk, ?_, ?_⟩
    · intro h
      rw [hv k b c hc hb hk, hv k2 b2 c2 hc2 hb2 hk2] at h
      have hpos : 0 < ncluster := by omega
      have hd := congrArg (fun x => x / ncluster) h
      have hm := congrArg (fun x => x % ncluster) h
      simp only [Nat.mul_comm _ ncluster, Nat.mul_add_div hpos, Nat.mul_add_mod,
        Nat.div_eq_of_lt hk, Nat.div_eq_of_lt hk2, Nat.mod_eq_of_lt hk,
        Nat.mod_eq_of_lt hk2] at hd hm
      omega
    · intro hk1
      rw [hv (k + 1) b c hc hb hk1, hv k b c hc hb hk]
      omega

/-- Scenario A as an instance of C17: two cycles of three clusters; the
triples (1, 1, 2) and (1, 2, 0) have the indices 17 and 18. -/
theorem C17_layout_index_witness :
    showCIF_index 3 2 1 1 < 2 * 4 * 3 ∧
    showCIF_index 3 2 1 1 = (1 * 4 + 1) * 3 + 2 ∧
    (showCIF_index 3 2 1 1 = showCIF_index 3 0 2 1 → 1 = 1 ∧ 1 = 2 ∧ 2 = 0) :=
  have t := C17_layout_index 2 3 1 1 2 1 2 0 (by decide) (by decide) (by decide) (by decide)
    (by decide) (by decide)
  ⟨t.1, (t.2 (by decide)).1, (t.2 (by decide)).2.1⟩

/-- C18: encoding hint from a file name. For every non-empty file name,
guess_mode_from_filename returns gzip exactly when the text after the last '.'
is "gz", that is when the name ends in ".gz"; bzip2 exactly when the name ends
in ".bz2"; and raw in every other case, a name without '.' included. -/
theorem C18_guess_mode (fn : List Char) (hne : fn ≠ []) :
    (guess_mode_from_filename fn = Res.ok XFILE_MODE.XFILE_GZIP ↔
      ∃ pre, fn = pre ++ ['.', 'g', 'z']) ∧
    (guess_mode_from_filename fn = Res.ok XFILE_MODE.XFILE_BZIP2 ↔
      ∃ pre, fn = pre ++ ['.', 'b', 'z', '2']) ∧
    (guess_mode_from_filename fn = Res.ok XFILE_MODE.XFILE_RAW ↔
      ¬ (∃ pre, fn = pre ++ ['.', 'g', 'z']) ∧ ¬ (∃ pre, fn = pre ++ ['.', 'b', 'z', '2'])) ∧
    ('.' ∉ fn → guess_mode_from_filename fn = Res.ok XFILE_MODE.XFILE_RAW) := by
  obtain ⟨s, hs⟩ := find_suffix_ok fn hne
  have hgz := find_suffix_eq_iff fn hne ['g', 'z'] (by decide) (by decide)
  have hbz := find_suffix_eq_iff fn hne ['b', 'z', '2'] (by decide) (by decide)
  rw [hs] at hgz hbz
  simp only [Res.ok.injEq] at hgz hbz
  have hg : guess_mode_from_filename fn =
      if s = ['g', 'z'] then Res.ok XFILE_MODE.XFILE_GZIP
      else if s = ['b', 'z', '2'] then Res.ok XFILE_MODE.XFILE_BZIP2
      else Res.ok XFILE_MODE.XFILE_RAW := by
    simp only [guess_mode_from_filename, hs, Res.bind_ok]
  have hraw : guess_mode_from_filename fn = Res.ok XFILE_MODE.XFILE_RAW ↔
      ¬ (∃ pre, fn = pre ++ ['.', 'g', 'z']) ∧ ¬ (∃ pre, fn = pre ++ ['.', 'b', 'z', '2']) := by
    rw [hg, ← hgz, ← hbz]
    by_cases h1 : s = ['g', 'z']
    · rw [if_pos h1]; simp [h1]
    · rw [if_neg h1]
      by_cases h2 : s = ['b', 'z', '2']
      · rw [if_pos h2]; simp [h2]
      · rw [if_neg h2]; simp [h1, h2]
  refine ⟨?_, ?_, hraw, ?_⟩
  · rw [hg, ← hgz]
    by_cases h1 : s = ['g', 'z']
    · rw [if_pos h1]; simp [h1]
    · rw [if_neg h1]
      by_cases h2 : s = ['b', 'z', '2']
      · rw [if_pos h2]; simp [h1]
      · rw [if_neg h2]; simp [h1]
  · rw [hg, ← hbz]
    by_cases h1 : s = ['g', 'z']
    · rw [if_pos h1]; simp [h1]
    · rw [if_neg h1]
      by_cases h2 : s = ['b', 'z', '2']
      · rw [if_pos h2]; simp [h2]
      · rw [if_neg h2]; simp [h2]
  · intro hdot
    rw [hraw]
    constructor
    · rintro ⟨pre, rfl⟩
      exact hdot (by simp)
    · rintro ⟨pre, rfl⟩
      exact hdot (by simp)

/-- Instances of C18: a gzip name, a bzip2 name, and a name without '.' whose
last letters are gz. -/
theorem C18_guess_mode_witness :
    guess_mode_from_filename ['s', '_', '1', '.', 'c', 'i', 'f', '.', 'g', 'z']
      = Res.ok XFILE_MODE.XFILE_GZIP ∧
    guess_mode_from_filename ['a', '.', 'b', 'z', '2'] = Res.ok XFILE_MODE.XFILE_BZIP2 ∧
    guess_mode_from_filename ['l', 'o', 'g', 'z'] = Res.ok XFILE_MODE.XFILE_RAW :=
  ⟨(C18_guess_mode ['s', '_', '1', '.', 'c', 'i', 'f', '.', 'g', 'z'] (by decide)).1.mpr
      ⟨['s', '_', '1', '.', 'c', 'i', 'f'], rfl⟩,
   (C18_guess_mode ['a', '.', 'b', 'z', '2'] (by decide)).2.1.mpr ⟨['a'], rfl⟩,
   (C18_guess_mode ['l', 'o', 'g', 'z'] (by decide)).2.2.2 (by decide)⟩

/-- C19 as stated fails: a source of 2 cycles of 2 ^ 30 + 1 clusters of width
1. The first splice (2 cycles at offset 0) forms its element count in 32 bits
and keeps 8 bytes only; the second splice (1 cycle at offset 1) then reads past
the end of those 8 bytes, while the direct splice of 1 cycle at offset 1
succeeds. -/
theorem C19_splice_compose_fails :
    (spliceCIF
        (some { version := 1, datasize := 1, firstcycle := 1, ncycle := 2,
                ncluster := 1073741825,
                intensity := some { block := List.replicate 8589934600 0, off := 0 } })
        2 0).bind (fun r => spliceCIF r 1 1) = Res.fault ∧
    spliceCIF
        (some { version := 1, datasize := 1, firstcycle := 1, ncycle := 2,
                ncluster := 1073741825,
                intensity := some { block := List.replicate 8589934600 0, off := 0 } })
        1 1
      = Res.ok (some { version := 1, datasize := 1, firstcycle := 1, ncycle := 1,
                       ncluster := 1073741825,
                       intensity := some { block := [0, 0, 0, 0], off := 0 } }) := by
  constructor
  · rw [spliceCIF_mod _ { block := List.replicate 8589934600 0, off := 0 } 2 0 rfl
      (by decide) (by decide) (by decide) (by decide)]
    rw [if_neg (by simp only [List.length_replicate]; decide)]
    simp only [Res.bind_ok]
    rw [spliceCIF_mod _ _ 1 1 rfl (by decide) (by decide) (by decide) (by decide)]
    rw [if_pos (by simp only [List.length_take, List.length_drop, List.length_replicate]; decide)]
  · rw [spliceCIF_mod _ { block := List.replicate 8589934600 0, off := 0 } 1 1 rfl
      (by decide) (by decide) (by decide) (by decide)]
    rw [if_neg (by simp only [List.length_replicate]; decide)]
    simp only [List.drop_replicate, List.take_replicate]
    decide

/-- C19 (amended): splices compose. For a source CifFile whose buffer holds
cycleCount * 4 * clusterCount elements and o1, c1, o2, c2 with o1 + c1 within
the source's cycleCount, o2 + c2 within c1 and c1 * 4 * clusterCount below
2 ^ 32, splicing (offset o2, count c2) out of the result of splicing
(offset o1, count c1) out of the source gives the same CifFile, header and
buffer, as splicing (offset o1 + o2, count c2) directly out of the source. -/
theorem C19_splice_compose (c : CifData) (blk : List Nat) (o1 c1 o2 c2 : Nat)
    (hw : c.datasize < 256) (hnc : c.ncycle < 65536) (hk : c.ncluster < 2 ^ 32)
    (hbuf : c.intensity = some { block := blk, off := 0 })
    (hlen : blk.length = c.ncycle * 4 * c.ncluster * c.datasize)
    (h1 : o1 + c1 ≤ c.ncycle) (h2 : o2 + c2 ≤ c1)
    (hlt : c1 * 4 * c.ncluster < 2 ^ 32) :
    (spliceCIF (some c) c1 o1).bind (fun r => spliceCIF r c2 o2) =
      spliceCIF (some c) c2 (o1 + o2) ∧
    spliceCIF (some c) c2 (o1 + o2) =
      Res.ok (some { version := c.version, datasize := c.datasize, firstcycle := 1,
                     ncycle := c2, ncluster := c.ncluster,
                     intensity := some
                       { block := (blk.drop ((o1 + o2) * 4 * c.ncluster * c.datasize)).take
                           (c2 * 4 * c.ncluster * c.datasize),
                         off := 0 } }) := by
  have m3 : ∀ a b : Nat, a ≤ b →
      a * 4 * c.ncluster * c.datasize ≤ b * 4 * c.ncluster * c.datasize := fun a b h =>
    Nat.mul_le_mul_right _ (Nat.mul_le_mul_right _ (Nat.mul_le_mul_right _ h))
  have m2 : ∀ a b : Nat, a ≤ b → a * 4 * c.ncluster ≤ b * 4 * c.ncluster := fun a b h =>
    Nat.mul_le_mul_right _ (Nat.mul_le_mul_right _ h)
  have hc2 : c2 * 4 * c.ncluster < 2 ^ 32 := Nat.lt_of_le_of_lt (m2 _ _ (by omega)) hlt
  have s1 := m3 (o1 + c1) c.ncycle h1
  have s2 := m3 (o2 + c2) c1 h2
  have s3 := m3 (o1 + o2 + c2) c.ncycle (by omega)
  have e1 : (o1 + c1) * 4 * c.ncluster * c.datasize =
      o1 * 4 * c.ncluster * c.datasize + c1 * 4 * c.ncluster * c.datasize := by ring
  have e2 : (o2 + c2) * 4 * c.ncluster * c.datasize =
      o2 * 4 * c.ncluster * c.datasize + c2 * 4 * c.ncluster * c.datasize := by ring
  have e3 : (o1 + o2) * 4 * c.ncluster * c.datasize =
      o1 * 4 * c.ncluster * c.datasize + o2 * 4 * c.ncluster * c.datasize := by ring
  have hdirect := spliceCIF_ok c { block := blk, off := 0 } c2 (o1 + o2) hbuf (by omega) hnc hk
    hw hc2 (by simp only [Nat.zero_add]; omega)
  simp only [Nat.zero_add] at hdirect
  refine ⟨?_, hdirect⟩
  rw [hdirect, spliceCIF_ok c { block := blk, off := 0 } c1 o1 hbuf h1 hnc hk hw hlt
    (by simp only [Nat.zero_add]; omega)]
  simp only [Res.bind_ok, Nat.zero_add]
  rw [spliceCIF_ok
    { version := c.version, datasize := c.datasize, firstcycle := 1, ncycle := c1,
      ncluster := c.ncluster,
      intensity := some
        { block := (blk.drop (o1 * 4 * c.ncluster * c.datasize)).take
            (c1 * 4 * c.ncluster * c.datasize), off := 0 } }
    { block := (blk.drop (o1 * 4 * c.ncluster * c.datasize)).take
        (c1 * 4 * c.ncluster * c.datasize), off := 0 }
    c2 o2 rfl h2 (by simp only; omega) hk hw hc2
    (by simp only [Nat.zero_add, List.length_take, List.length_drop]; omega)]
  simp only [Nat.zero_add]
  rw [take_drop_take_drop _ _ _ _ _ (by omega), e3]

/-- An instance of C19 on the source of scenario C: cycles 2 to 4, then the
second and third of these, against cycles 3 and 4 directly. -/
theorem C19_splice_compose_witness :
    (spliceCIF (some scenarioC_source) 3 1).bind (fun r => spliceCIF r 2 1) =
      spliceCIF (some scenarioC_source) 2 (1 + 1) ∧
    spliceCIF (some scenarioC_source) 2 (1 + 1) =
      Res.ok (some { version := 1, datasize := 1, firstcycle := 1, ncycle := 2, ncluster := 1,
                     intensity := some { block := [21, 22, 23, 24, 31, 32, 33, 34],
                                         off := 0 } }) :=
  C19_splice_compose scenarioC_source
    [1, 2, 3, 4, 11, 12, 13, 14, 21, 22, 23, 24, 31, 32, 33, 34] 1 3 1 2
    (by decide) (by decide) (by decide) rfl (by decide) (by decide) (by decide) (by decide)

/-- C20 as stated fails. With ncycle = 65537 and one cluster of width 1 the
header stores cycleCount 1 (the 16-bit field keeps 65537 modulo 65536) and
clusterCount 1, but 262148 elements follow, not 4. With ncycle = 1024 and
2 ^ 20 clusters the header stores these values and no element follows: the
32-bit element count has wrapped from 2 ^ 32 to 0. -/
theorem C20_header_and_body_differ :
    (write2CIFstream (some { mode := XFILE_MODE.XFILE_RAW, fh := [] })
        (some { block := List.replicate 262148 0, off := 0 }) 1 65537 1 1
      = Res.ok (true, { mode := XFILE_MODE.XFILE_RAW,
                        fh := wireHeader 1 1 1 1 1 ++ List.replicate 262148 0 }) ∧
      262148 ≠ 4 * 1 * 1) ∧
    (write2CIFstream (some { mode := XFILE_MODE.XFILE_RAW, fh := [] })
        (some { block := List.replicate 4294967296 0, off := 0 }) 1 1024 1048576 1
      = Res.ok (true, { mode := XFILE_MODE.XFILE_RAW,
                        fh := wireHeader 1 1 1 1024 1048576 ++ [] }) ∧
      0 ≠ 4 * 1024 * 1048576) := by
  refine ⟨⟨?_, by decide⟩, ⟨by decide, by decide⟩⟩
  rw [write2CIFstream_plain _ (Or.inr rfl) _ 1 65537 1 1 (Or.inl rfl)]
  have e1 : (65537 * 4 * 1) % 2 ^ 32 = 262148 := by decide
  have e2 : 65537 % 65536 = 1 := by decide
  simp only [e1, e2, List.length_replicate, List.drop_zero, List.take_replicate, Nat.one_mul,
    Nat.min_self, List.nil_append]
  rw [if_neg (by omega)]

/-- C20 (amended): header and body of an encoded record agree. For a raw
stream, nbyte in 1, 2, 4, a 16-bit firstcycle, ncycle below 65536 and a 32-bit
ncluster with ncycle * 4 * ncluster below 2 ^ 32, and a buffer that holds that
many elements, write2CIFstream appends the 13-byte header, from which
readCifHeader reads back cycleCount = ncycle and clusterCount = ncluster, and
after it nbyte * (4 * ncycle * ncluster) bytes: 4 * C * K elements, the output
being 13 + nbyte * 4 * C * K bytes long. -/
theorem C20_header_and_body_agree (junk : CifData) (fp : XFILE) (hp : fp.plain) (p : Ptr)
    (fc nc k w : Nat)
    (hw : w = 1 ∨ w = 2 ∨ w = 4) (hfc : fc < 65536) (hnc : nc < 65536) (hk : k < 2 ^ 32)
    (hlt : nc * 4 * k < 2 ^ 32)
    (hsrc : p.off + w * (4 * nc * k) ≤ p.block.length) :
    ∃ header body : List Nat,
      write2CIFstream (some fp) (some p) fc nc k w =
        Res.ok (true, { fp with fh := fp.fh ++ (header ++ body) }) ∧
      header.length = 13 ∧
      readCifHeader junk { fp with fh := header ++ body } =
        Res.ok (some { version := 1, datasize := w, firstcycle := fc, ncycle := nc,
                       ncluster := k, intensity := none }, { fp with fh := body }) ∧
      body.length = w * (4 * nc * k) ∧
      (header ++ body).length = 13 + w * 4 * nc * k := by
  have e1 : nc * 4 * k = 4 * nc * k := by ring
  have hmod : (nc * 4 * k) % 2 ^ 32 = 4 * nc * k := by rw [Nat.mod_eq_of_lt hlt, e1]
  have hbl : ((p.block.drop p.off).take (w * (4 * nc * k))).length = w * (4 * nc * k) := by
    rw [List.length_take, List.length_drop]; omega
  have hhl : (wireHeader 1 w fc nc k).length = 13 := by
    simp [wireHeader, length_toLE]
  refine ⟨wireHeader 1 w fc nc k, (p.block.drop p.off).take (w * (4 * nc * k)), ?_, hhl, ?_,
    hbl, ?_⟩
  · rw [write2CIFstream_plain fp hp p fc nc k w hw, hmod, Nat.mod_eq_of_lt hnc,
      if_neg (by omega), List.append_assoc]
  · have hp2 : XFILE.plain { fp with fh := (wireHeader 1 w fc nc k ++
        (p.block.drop p.off).take (w * (4 * nc * k))) } := hp
    exact readCifHeader_valid junk _ hp2 w fc nc k _ hw hfc hnc hk rfl
  · rw [List.length_append, hhl, hbl]
    ring

/-- Scenario A as an instance of C20: two cycles of three clusters of width
2; the output is 13 + 48 bytes long. -/
theorem C20_header_and_body_agree_witness :
    ∃ header body : List Nat,
      write2CIFstream (some { mode := XFILE_MODE.XFILE_RAW, fh := [] })
          (some { block := List.replicate 48 7, off := 0 }) 1 2 3 2 =
        Res.ok (true, { mode := XFILE_MODE.XFILE_RAW, fh := [] ++ (header ++ body) }) ∧
      header.length = 13 ∧
      readCifHeader new_cif { mode := XFILE_MODE.XFILE_RAW, fh := header ++ body } =
        Res.ok (some { version := 1, datasize := 2, firstcycle := 1, ncycle := 2,
                       ncluster := 3, intensity := none },
                { mode := XFILE_MODE.XFILE_RAW, fh := body }) ∧
      body.length = 2 * (4 * 2 * 3) ∧
      (header ++ body).length = 13 + 2 * 4 * 2 * 3 :=
  C20_header_and_body_agree new_cif { mode := XFILE_MODE.XFILE_RAW, fh := [] } (by decide)
    { block := List.replicate 48 7, off := 0 } 1 2 3 2
    (by decide) (by decide) (by decide) (by decide) (by decide) (by decide)

end CifParsing
